import Mathlib

set_option maxHeartbeats 1000000

/-!
A verification development for `src/expiredWaiverDeletion.py`: a script that
loads a CSV export of Sonatype IQ policy waivers, classifies waivers as
expired by comparing a parsed expiration timestamp against the current UTC
time, and — after an interactive confirmation gate — deletes each expired
waiver through the IQ policy-waiver DELETE endpoint, accumulating
deleted/failed counts with per-item error isolation.

The embedding below translates the script's logic into executable Lean
definitions:
* `parse_waiver_datetime` embeds the Python function of the same name,
  including the exact CPython `strptime` field grammar for the three format
  strings it tries (`%Y-%m-%dT%H:%M:%SZ` handling via the `Z` suffix strip,
  `%Y-%m-%dT%H:%M:%S%z`, and `%Y-%m-%dT%H:%M:%S.%f` with `Z` strip), the
  calendar validity rules enforced by `datetime`, and the UTC-offset bound
  enforced by `datetime.timezone`.  Instants are integer microseconds since
  the proleptic-Gregorian epoch used by `date.toordinal`.  CPython compiles
  the format regexes over `str`, where `\d` matches every Unicode decimal
  digit (a set that depends on the interpreter's Unicode tables) and `int()`
  converts such digits; the embedding models the ASCII fragment `0-9`, on
  which it is exact, and the one universal statement about the rejected set
  (C9) is restricted to all-ASCII inputs accordingly.
* `SCOPE_TYPE_MAP`, the classification loop, `make_api_request`, and the
  confirmation-gated deletion loop are embedded as pure functions; the
  HTTP layer is abstracted as a function from the request endpoint to a
  `Wire` outcome (timeout, connection error, or a response with status and
  body), exactly the distinctions the script's exception handlers make.
-/

namespace ExpiredWaiverDeletion

/-! ### Character and digit helpers

CPython's `re` over `str` lets `\d` match any Unicode decimal digit
(category Nd), not just ASCII, and `int()` converts such digits, so the
real parser also accepts some timestamps written with non-ASCII digits.
`isDigitC` models the ASCII digits `0`-`9` only; on strings made of ASCII
characters this is exactly `\d`, and every statement below that
characterizes the rejected set is restricted to all-ASCII input. -/

def isDigitC (c : Char) : Bool := decide (48 ≤ c.toNat) && decide (c.toNat ≤ 57)

/-- `true` when every character of the string is ASCII (code point below
128); on such strings the ASCII digit model coincides with `\d`. -/
def asciiOnly (l : List Char) : Bool := l.all fun c => decide (c.toNat < 128)

def digitVal (c : Char) : Nat := c.toNat - 48

/-! ### Field readers for the CPython `strptime` grammar

`%Y` is exactly four digits.  `%m`, `%d`, `%H`, `%M`, `%S` are one or two
digits; the two-digit alternatives of the underlying regular expressions
are tried first, and because every numeric field is followed by a
non-digit (a separator, the offset sign, `.`, or end of input), the net
behaviour is: if two digits are present they must form a value in the
two-digit range, otherwise a single digit must be in the one-digit range.
Seconds values 60 and 61 match the regex but are rejected by the
`datetime` constructor with `ValueError`, which the script's `except`
handlers turn into the same result as a parse failure, so they are
modelled as a failing read. -/

def read4 : List Char → Option (Nat × List Char)
  | a :: b :: c :: d :: rest =>
    if isDigitC a && isDigitC b && isDigitC c && isDigitC d then
      some (1000 * digitVal a + 100 * digitVal b + 10 * digitVal c + digitVal d, rest)
    else none
  | _ => none

def read12 (one two : Nat → Bool) : List Char → Option (Nat × List Char)
  | a :: b :: rest =>
    if isDigitC a && isDigitC b then
      (if two (10 * digitVal a + digitVal b) then some (10 * digitVal a + digitVal b, rest)
       else none)
    else if isDigitC a then
      (if one (digitVal a) then some (digitVal a, b :: rest) else none)
    else none
  | [a] => if isDigitC a && one (digitVal a) then some (digitVal a, ([] : List Char)) else none
  | [] => none

def expectCh (c : Char) : List Char → Option (List Char)
  | x :: rest => if x = c then some rest else none
  | [] => none

/-- `strptime` compiles its format regex with `re.IGNORECASE`, so the literal
`T` separator also matches a lowercase `t`. -/
def expectT : List Char → Option (List Char)
  | x :: rest => if x = 'T' ∨ x = 't' then some rest else none
  | [] => none

def monthOne (v : Nat) : Bool := decide (1 ≤ v)
def monthTwo (v : Nat) : Bool := decide (1 ≤ v) && decide (v ≤ 12)
def dayOne (v : Nat) : Bool := decide (1 ≤ v)
def dayTwo (v : Nat) : Bool := decide (1 ≤ v) && decide (v ≤ 31)
def hourOne (_ : Nat) : Bool := true
def hourTwo (v : Nat) : Bool := decide (v ≤ 23)
def minOne (_ : Nat) : Bool := true
def minTwo (v : Nat) : Bool := decide (v ≤ 59)
def secOne (_ : Nat) : Bool := true
def secTwo (v : Nat) : Bool := decide (v ≤ 59)

structure YMDHMS where
  y : Nat
  m : Nat
  d : Nat
  h : Nat
  mi : Nat
  s : Nat
deriving DecidableEq

/-- Reads the common `%Y-%m-%dT%H:%M:%S` prefix of all three formats the
script tries. -/
def readYMDHMS (l : List Char) : Option (YMDHMS × List Char) :=
  (read4 l).bind fun py =>
  (expectCh '-' py.2).bind fun l1 =>
  (read12 monthOne monthTwo l1).bind fun pm =>
  (expectCh '-' pm.2).bind fun l2 =>
  (read12 dayOne dayTwo l2).bind fun pdd =>
  (expectT pdd.2).bind fun l3 =>
  (read12 hourOne hourTwo l3).bind fun ph =>
  (expectCh ':' ph.2).bind fun l4 =>
  (read12 minOne minTwo l4).bind fun pmi =>
  (expectCh ':' pmi.2).bind fun l5 =>
  (read12 secOne secTwo l5).bind fun ps =>
  some (⟨py.1, pm.1, pdd.1, ph.1, pmi.1, ps.1⟩, ps.2)

/-! ### Calendar arithmetic (proleptic Gregorian, as in `datetime.date`) -/

def isLeap (y : Nat) : Bool := y % 4 == 0 && (y % 100 != 0 || y % 400 == 0)

def daysInMonth (y m : Nat) : Nat :=
  if m = 2 then (if isLeap y then 29 else 28)
  else if m = 4 ∨ m = 6 ∨ m = 9 ∨ m = 11 then 30
  else 31

def daysBeforeMonth (y : Nat) : Nat → Nat
  | 0 => 0
  | n + 1 => if n = 0 then 0 else daysBeforeMonth y n + daysInMonth y n

/-- `date(y, m, d).toordinal()`: day number of the proleptic Gregorian
calendar with `0001-01-01` as day 1. -/
def toOrdinal (t : YMDHMS) : Nat :=
  365 * (t.y - 1) + (t.y - 1) / 4 - (t.y - 1) / 100 + (t.y - 1) / 400 +
    daysBeforeMonth t.y t.m + t.d

/-- The absolute instant of naive fields interpreted in UTC, in integer
microseconds from the `toordinal` epoch. -/
def naiveMicros (t : YMDHMS) (micro : Nat) : Int :=
  (((toOrdinal t * 86400 + t.h * 3600 + t.mi * 60 + t.s) * 1000000 + micro : Nat) : Int)

/-- The validity conditions the `datetime` constructor enforces
(`MINYEAR = 1`, real calendar day); a violation raises `ValueError`,
which the script's handlers convert to a parse failure. -/
def validYMD (t : YMDHMS) : Bool :=
  decide (1 ≤ t.y) && decide (1 ≤ t.m) && decide (t.m ≤ 12) && decide (1 ≤ t.d) &&
    decide (t.d ≤ daysInMonth t.y t.m)

/-! ### The three formats tried by `parse_waiver_datetime` -/

/-- `strptime(core, '%Y-%m-%dT%H:%M:%S')` on the string with its trailing
`Z` removed (first attempt for `Z`-suffixed inputs). -/
def format1 (l : List Char) : Option Int :=
  (readYMDHMS l).bind fun p =>
  if p.2 = [] ∧ validYMD p.1 then some (naiveMicros p.1 0) else none

def fracMicroVal (ds : List Char) : Nat :=
  (ds.foldl (fun a c => 10 * a + digitVal c) 0) * 10 ^ (6 - ds.length)

/-- `%f`: a dot then one to six digits, greedy; the value is right-padded
with zeros to microseconds. -/
def readFrac (l : List Char) : Option (Nat × List Char) :=
  match l with
  | '.' :: rest =>
    let fs := rest.takeWhile isDigitC
    if fs.length = 0 then none
    else some (fracMicroVal (fs.take 6), rest.drop (min 6 fs.length))
  | _ => none

/-- `strptime(core, '%Y-%m-%dT%H:%M:%S.%f')` (fallback for `Z`-suffixed
inputs whose first parse failed). -/
def format2 (l : List Char) : Option Int :=
  (readYMDHMS l).bind fun p =>
  (readFrac p.2).bind fun q =>
  if q.2 = [] ∧ validYMD p.1 then some (naiveMicros p.1 q.1) else none

/-- Optional fractional part of a `%z` offset: `(\.\d{1,6})?`.  When the
dot is present but followed by no digit the group matches empty and the
dot is left over (causing the enclosing parse to fail on leftover input).
Returns `(seconds, microForOffset, rest)`. -/
def readOffFrac (ss : Nat) (l : List Char) : Option (Nat × Nat × List Char) :=
  match l with
  | '.' :: rest =>
    let fs := rest.takeWhile isDigitC
    if fs.length = 0 then some (ss, 0, '.' :: rest)
    else some (ss, fracMicroVal (fs.take 6), rest.drop (min 6 fs.length))
  | _ => some (ss, 0, l)

/-- Optional seconds group of `%z`: `(:?[0-5]\d(\.\d{1,6})?)?`.
`c1` records whether a colon separated hours from minutes; CPython raises
`ValueError` (`Inconsistent use of :`, or `int()` on a stray colon) when
the seconds separator style disagrees with it, and that exception becomes
a parse failure in the script. -/
def readOffSec (c1 : Bool) (l : List Char) : Option (Nat × Nat × List Char) :=
  match l with
  | ':' :: a :: b :: rest =>
    if isDigitC a && isDigitC b && decide (10 * digitVal a + digitVal b ≤ 59) then
      (if c1 then readOffFrac (10 * digitVal a + digitVal b) rest else none)
    else some (0, 0, ':' :: a :: b :: rest)
  | a :: b :: rest =>
    if isDigitC a && isDigitC b && decide (10 * digitVal a + digitVal b ≤ 59) then
      (if c1 then none else readOffFrac (10 * digitVal a + digitVal b) rest)
    else some (0, 0, a :: b :: rest)
  | l => some (0, 0, l)

/-- `%z`: `[+-]\d\d:?[0-5]\d(:?[0-5]\d(\.\d{1,6})?)?`, with the resulting
offset bounded strictly below 24 hours by `datetime.timezone` (a larger
offset raises `ValueError`, i.e. the parse fails).  Returns the signed
offset in microseconds and the remaining input. -/
def readZoff (l : List Char) : Option (Int × List Char) :=
  match l with
  | sgn :: rest =>
    if sgn = '+' ∨ sgn = '-' then
      match rest with
      | a :: b :: rest2 =>
        if isDigitC a && isDigitC b then
          let hh := 10 * digitVal a + digitVal b
          let cr : Bool × List Char := (match rest2 with
            | x :: t => if x = ':' then (true, t) else (false, x :: t)
            | [] => (false, []))
          match cr.2 with
          | m1 :: m2 :: rest4 =>
            if isDigitC m1 && isDigitC m2 && decide (10 * digitVal m1 + digitVal m2 ≤ 59) then
              let mm := 10 * digitVal m1 + digitVal m2
              match readOffSec cr.1 rest4 with
              | some (ss, fr, rest5) =>
                let total : Int := (((hh * 3600 + mm * 60 + ss) * 1000000 + fr : Nat) : Int)
                if total < 86400000000 then
                  some (if sgn = '-' then -total else total, rest5)
                else none
              | none => none
            else none
          | _ => none
        else none
      | _ => none
    else none
  | [] => none

/-- `strptime(s, '%Y-%m-%dT%H:%M:%S%z')` (attempted for inputs that do not
end in `Z`).  The aware result's instant is the naive fields minus the
offset. -/
def format3 (l : List Char) : Option Int :=
  (readYMDHMS l).bind fun p =>
  (readZoff p.2).bind fun q =>
  if q.2 = [] ∧ validYMD p.1 then some (naiveMicros p.1 0 - q.1) else none

/-- The string-level logic of `parse_waiver_datetime`: a trailing `Z` is
stripped and the bare format is tried, falling back to the fractional
format; otherwise the `%z` format is tried once.  Every failure path
returns `none`. -/
def parseChars (l : List Char) : Option Int :=
  if l.getLast? = some 'Z' then
    match format1 l.dropLast with
    | some v => some v
    | none => format2 l.dropLast
  else format3 l

/-- The raw CSV cell handed to `parse_waiver_datetime`: `pd.isna` input,
a non-string value, or a string. -/
inductive RawCell where
  | absent
  | nonString
  | strVal (s : String)
deriving DecidableEq

/-- `parse_waiver_datetime`: `None` for absent or non-string input, else
the instant of the parsed timezone-aware datetime, or `None` when every
format fails. -/
def parse_waiver_datetime : RawCell → Option Int
  | .absent => none
  | .nonString => none
  | .strVal s => parseChars s.data

/-! ### Scope Type mapping

`SCOPE_TYPE_MAP = {"root_organization": "organization", "organization":
"organization", "application": "application", "repository": "repository",
"repository_container": "repository_container"}`, looked up with
`dict.get` (i.e. `none` for an unknown key). -/

def SCOPE_TYPE_MAP (s : String) : Option String :=
  if s = "root_organization" then some "organization"
  else if s = "organization" then some "organization"
  else if s = "application" then some "application"
  else if s = "repository" then some "repository"
  else if s = "repository_container" then some "repository_container"
  else none

/-! ### CSV rows and the classification loop -/

/-- A row of the waiver CSV after column cleanup.  `expiry = none` models a
`pd.isna` Expiration Date cell (the loop converts present cells to strings
with `str(...)` before parsing), `scopeId = none` models a missing
(`pd.isna`) Scope Id, and `component = none` models an absent Component
Name (for which `row.get` supplies the default `N/A`). -/
structure Row where
  waiverId : String
  scopeType : String
  scopeId : Option String
  expiry : Option String
  component : Option String
deriving DecidableEq

/-- The dict appended to `expired_waivers_to_delete` for a row marked for
deletion. -/
structure Entry where
  waiverId : String
  scopeType : String
  scopeId : Option String
  expirationRaw : Option String
  componentName : String
deriving DecidableEq

def entryOf (r : Row) : Entry :=
  ⟨r.waiverId, r.scopeType, r.scopeId, r.expiry, r.component.getD "N/A"⟩

/-- The three ways the classification loop can treat a row: appended to
`expired_waivers_to_delete`; skipped with a WARN because the expiration
did not parse; or silently passed over (no expiration set, or not yet
expired). -/
inductive RowClass where
  | expired
  | skippedUnparseable
  | excluded
deriving DecidableEq

def classifyRow (now : Int) (r : Row) : RowClass :=
  match r.expiry with
  | none => .excluded
  | some e =>
    match parseChars e.data with
    | none => .skippedUnparseable
    | some t => if t < now then .expired else .excluded

/-- The classification loop over `df_waivers.iterrows()`: builds the
`expired_waivers_to_delete` list in input order and collects the
(waiver id, raw string) pairs of rows whose expiration failed to parse
(the WARN diagnostics), also in input order. -/
def classify (now : Int) : List Row → List Entry × List (String × String)
  | [] => ([], [])
  | r :: rs =>
    let rest := classify now rs
    match r.expiry with
    | none => rest
    | some e =>
      match parseChars e.data with
      | none => (rest.1, (r.waiverId, e) :: rest.2)
      | some t => if t < now then (entryOf r :: rest.1, rest.2) else rest

/-! ### The API request helper and the deletion loop -/

/-- The body of an HTTP response as far as `make_api_request` can observe
it: empty text, text that decodes as JSON (with its Python truthiness), or
text that fails to decode (raising `JSONDecodeError`). -/
inductive Body where
  | empty
  | json (truthy : Bool)
  | malformed
deriving DecidableEq

/-- What the transport produces for one request: `requests.request` raising
`Timeout`, raising `ConnectionError`, or returning a response with a
status code and a body. -/
inductive Wire where
  | timeout
  | connError
  | response (status : Nat) (body : Body)
deriving DecidableEq

/-- The possible return values of `make_api_request` on its success paths:
`True` (204 on a DELETE), `[]` (200 with empty text), or the decoded JSON
value, abstracted to its truthiness. -/
inductive PyRet where
  | pyTrue
  | pyEmptyList
  | pyJson (truthy : Bool)
deriving DecidableEq

/-- `make_api_request`: `raise_for_status` turns any 4xx/5xx status into
`HTTPError` (handled, returning `None`); a 204 on a DELETE returns `True`;
a 200 with empty text returns `[]`; otherwise the decoded JSON is
returned, with decoding failure (including an empty body) handled as
`None`; `Timeout` and `ConnectionError` are handled as `None`. -/
def make_api_request (method : String) (w : Wire) : Option PyRet :=
  match w with
  | .timeout => none
  | .connError => none
  | .response st b =>
    if 400 ≤ st ∧ st < 600 then none
    else if st = 204 ∧ method = "DELETE" then some .pyTrue
    else if st = 200 ∧ b = .empty then some .pyEmptyList
    else
      match b with
      | .json t => some (.pyJson t)
      | _ => none

/-- Python truthiness of a `make_api_request` return value, as tested by
`if success:` in the deletion loop. -/
def pyTruthy : PyRet → Bool
  | .pyTrue => true
  | .pyEmptyList => false
  | .pyJson t => t

/-- Per-entry result of the deletion loop, following the spec's outcome
vocabulary.  The loop lumps every non-truthy `make_api_request` result
into the failed count; the distinction below reflects which branch of the
code produced it: an HTTP error status (the server's rejection), a
transport-level exception (timeout, connection failure, undecodable
body), or a response the code accepted but whose value is falsy (200 with
empty text, or falsy JSON). -/
inductive Outcome where
  | deleted
  | rejectedUnknownScope
  | rejectedMissingScopeId
  | rejectedByServer
  | rejectedTransportError
  | rejectedFalsyResponse
deriving DecidableEq

/-- Classification of one DELETE attempt's wire outcome by the deletion
loop: truthy return → deleted; `None` from an HTTP error status →
rejected by the server; `None` from a timeout, connection failure or
undecodable body → transport error; falsy return → counted failed. -/
def classifyApiOutcome (w : Wire) : Outcome :=
  match make_api_request "DELETE" w with
  | some r => if pyTruthy r then .deleted else .rejectedFalsyResponse
  | none =>
    match w with
    | .timeout => .rejectedTransportError
    | .connError => .rejectedTransportError
    | .response st _ => if 400 ≤ st ∧ st < 600 then .rejectedByServer else .rejectedTransportError

/-- One iteration of the deletion loop for one entry: resolve the scope
type (unknown → failure, no API call), check the scope id (missing or
empty → failure, no API call), and otherwise issue the DELETE at
`policyWaivers/{scope}/{ownerId}/{waiverId}`.  The transport is abstracted
as a function `api` from the endpoint to its wire outcome.  Returns the
outcome and the number of API calls made (0 or 1). -/
def processEntry (api : String → Wire) (e : Entry) : Outcome × Nat :=
  match SCOPE_TYPE_MAP e.scopeType with
  | none => (.rejectedUnknownScope, 0)
  | some tok =>
    match e.scopeId with
    | none => (.rejectedMissingScopeId, 0)
    | some oid =>
      if oid = "" then (.rejectedMissingScopeId, 0)
      else
        (classifyApiOutcome (api ("policyWaivers/" ++ tok ++ "/" ++ oid ++ "/" ++ e.waiverId)), 1)

structure DelState where
  deleted : Nat
  failed : Nat
  outcomes : List Outcome
  apiCalls : Nat
deriving DecidableEq

/-- The confirmed deletion loop: every entry is processed exactly once, in
order; a truthy API result increments `deleted_count`, every other
outcome increments `failed_count`; no outcome stops the loop. -/
def runDeletion (api : String → Wire) : List Entry → DelState
  | [] => ⟨0, 0, [], 0⟩
  | e :: es =>
    let p := processEntry api e
    let r := runDeletion api es
    ⟨(if p.1 = .deleted then 1 else 0) + r.deleted,
     (if p.1 = .deleted then 0 else 1) + r.failed,
     p.1 :: r.outcomes,
     p.2 + r.apiCalls⟩

/-! ### The confirmation gate -/

/-- Python `str.isspace` characters, restricted to the ASCII control/space
range actually relevant here (Unicode space code points behave the same
way and are omitted from the model). -/
def isPySpace (n : Nat) : Bool :=
  decide (9 ≤ n) && decide (n ≤ 13) || decide (28 ≤ n) && decide (n ≤ 32)

/-- Code points of a string, the level at which `str.strip`/`str.upper`
operate. -/
def strCodes (s : String) : List Nat := s.data.map Char.toNat

/-- `str.strip()`: remove leading and trailing whitespace. -/
def pyStrip (l : List Nat) : List Nat :=
  ((l.dropWhile isPySpace).reverse.dropWhile isPySpace).reverse

/-- `str.upper()` on ASCII code points. -/
def pyUpper (l : List Nat) : List Nat :=
  l.map fun n => if 97 ≤ n ∧ n ≤ 122 then n - 32 else n

/-- `str.lower()` on ASCII code points (used to state the case-folding
reading of the gate). -/
def pyLower (l : List Nat) : List Nat :=
  l.map fun n => if 65 ≤ n ∧ n ≤ 90 then n + 32 else n

/-- The confirmation gate: `confirm.strip().upper() == "DELETE"`. -/
def confirmGranted (s : String) : Bool :=
  pyUpper (pyStrip (strCodes s)) == strCodes "DELETE"

/-! ### The deletion section of `__main__` -/

structure RunSummary where
  deleted : Nat
  failed : Nat
  outcomes : List Outcome
  confirmPrompts : Nat
  apiCalls : Nat
deriving DecidableEq

/-- The deletion section: with no expired waivers it only prints a result
line (no prompt, no API calls); otherwise it prompts exactly once and
either runs the deletion loop (input `DELETE` after strip/upper) or
cancels with zero counts and zero API calls. -/
def deletionSection (entries : List Entry) (userInput : String) (api : String → Wire) :
    RunSummary :=
  if entries.isEmpty then ⟨0, 0, [], 0, 0⟩
  else if confirmGranted userInput then
    let r := runDeletion api entries
    ⟨r.deleted, r.failed, r.outcomes, 1, r.apiCalls⟩
  else ⟨0, 0, [], 1, 0⟩

/-! ### Reference encoders for the accepted timestamp profiles

Used to state the round-trip property of the Normalizer: rendering a field
tuple in one of the three canonical profiles and parsing it back recovers
the corresponding UTC instant. -/

def digitChar (n : Nat) : Char :=
  if n = 0 then '0' else if n = 1 then '1' else if n = 2 then '2' else if n = 3 then '3'
  else if n = 4 then '4' else if n = 5 then '5' else if n = 6 then '6' else if n = 7 then '7'
  else if n = 8 then '8' else '9'

def pad2 (n : Nat) : List Char := [digitChar (n / 10), digitChar (n % 10)]

def pad4 (n : Nat) : List Char :=
  [digitChar (n / 1000), digitChar (n / 100 % 10), digitChar (n / 10 % 10), digitChar (n % 10)]

def pad6 (n : Nat) : List Char :=
  [digitChar (n / 100000), digitChar (n / 10000 % 10), digitChar (n / 1000 % 10),
   digitChar (n / 100 % 10), digitChar (n / 10 % 10), digitChar (n % 10)]

/-- The canonical `YYYY-MM-DDTHH:MM:SS` rendering of a field tuple. -/
def renderCore (t : YMDHMS) : List Char :=
  pad4 t.y ++ '-' :: pad2 t.m ++ '-' :: pad2 t.d ++ 'T' :: pad2 t.h ++ ':' :: pad2 t.mi ++
    ':' :: pad2 t.s

/-- Profile `YYYY-MM-DDTHH:MM:SSZ`. -/
def renderZ (t : YMDHMS) : List Char := renderCore t ++ ['Z']

/-- Profile `YYYY-MM-DDTHH:MM:SS.ffffffZ`. -/
def renderFracZ (t : YMDHMS) (micro : Nat) : List Char :=
  renderCore t ++ '.' :: pad6 micro ++ ['Z']

/-- Profile `YYYY-MM-DDTHH:MM:SS±HH:MM`. -/
def renderOffset (t : YMDHMS) (neg : Bool) (oh om : Nat) : List Char :=
  renderCore t ++ (if neg then '-' else '+') :: pad2 oh ++ ':' :: pad2 om

/-- The signed offset, in microseconds, denoted by a rendered `±HH:MM`
suffix. -/
def offsetMicros (neg : Bool) (oh om : Nat) : Int :=
  (if neg then -1 else 1) * (((oh * 3600 + om * 60) * 1000000 : Nat) : Int)

/-! ### The tolerant profile shape

The code accepts more strings than the three canonical profiles: numeric
fields may drop leading zeros, the date/time separator may be a lowercase
`t`, the offset colon may be omitted, and offsets may carry seconds and a
fraction.  `tolerantShape` recognizes this extended shape (character
structure only — value validity such as month ranges is separate), and is
used to state that everything outside it is unparseable. -/

def digitsSpan (l : List Char) : List Char × List Char :=
  (l.takeWhile isDigitC, l.dropWhile isDigitC)

/-- A run of one or two digits, returning the rest. -/
def run12 (l : List Char) : Option (List Char) :=
  if 1 ≤ (digitsSpan l).1.length ∧ (digitsSpan l).1.length ≤ 2 then some (digitsSpan l).2
  else none

/-- A given separator character followed by a run of one or two digits. -/
def sepRun (c : Char) (l : List Char) : Option (List Char) :=
  match l with
  | x :: r => if x = c then run12 r else none
  | [] => none

/-- The date/time separator (`T` or `t`) followed by a run of one or two
digits. -/
def sepRunT (l : List Char) : Option (List Char) :=
  match l with
  | x :: r => if x = 'T' ∨ x = 't' then run12 r else none
  | [] => none

/-- Shape of the common `(Y)YYY-(M)M-(D)DT(H)H:(M)M:(S)S` portion (four
year digits, one or two digits per other field), returning the rest. -/
def shapeCore (l : List Char) : Option (List Char) :=
  if (digitsSpan l).1.length = 4 then
    (sepRun '-' (digitsSpan l).2).bind fun l2 =>
    (sepRun '-' l2).bind fun l3 =>
    (sepRunT l3).bind fun l4 =>
    (sepRun ':' l4).bind fun l5 =>
    sepRun ':' l5
  else none

/-- Shape of an offset fraction: a dot and one to six digits ending the
input. -/
def shapeFrac (l : List Char) : Bool :=
  match l with
  | x :: r =>
    if x = '.' then
      decide (1 ≤ (digitsSpan r).1.length) && decide ((digitsSpan r).1.length ≤ 6) &&
        decide ((digitsSpan r).2 = [])
    else false
  | [] => false

/-- Shape of an offset's tail after its minutes in the colon style: end of
input, or a colon, two seconds digits, and an optional fraction. -/
def shapeOffsetS (l : List Char) : Bool :=
  match l with
  | [] => true
  | x :: r =>
    if x = ':' then
      if (digitsSpan r).1.length = 2 then
        decide ((digitsSpan r).2 = []) || shapeFrac (digitsSpan r).2
      else false
    else false

/-- Shape of an offset after two hour digits in the colon style: a colon
and two minutes digits, then `shapeOffsetS`. -/
def shapeOffsetM (l : List Char) : Bool :=
  match l with
  | x :: r =>
    if x = ':' then
      if (digitsSpan r).1.length = 2 then shapeOffsetS (digitsSpan r).2 else false
    else false
  | [] => false

/-- Shape of a numeric offset after its sign: `HH:MM`, `HHMM`, `HH:MM:SS`,
`HHMMSS`, the last two optionally carrying a fraction. -/
def shapeOffset (l : List Char) : Bool :=
  if (digitsSpan l).1.length = 2 then shapeOffsetM (digitsSpan l).2
  else if (digitsSpan l).1.length = 4 then decide ((digitsSpan l).2 = [])
  else if (digitsSpan l).1.length = 6 then
    decide ((digitsSpan l).2 = []) || shapeFrac (digitsSpan l).2
  else false

/-- Shape of what may follow the seconds field: a final `Z`, a fraction
and a final `Z`, or a signed numeric offset. -/
def shapeTail (l : List Char) : Bool :=
  match l with
  | x :: r =>
    if x = 'Z' then decide (r = [])
    else if x = '.' then
      decide (1 ≤ (digitsSpan r).1.length) && decide ((digitsSpan r).1.length ≤ 6) &&
        decide ((digitsSpan r).2 = ['Z'])
    else if x = '+' ∨ x = '-' then shapeOffset r
    else false
  | [] => false

/-- The full tolerant profile shape accepted by the Normalizer on
all-ASCII input.  (Because `isDigitC` is the ASCII fragment of `\d`, this
recognizer understates the accept set on strings containing non-ASCII
Unicode decimal digits; the C9 statement therefore carries an
`asciiOnly` hypothesis.) -/
def tolerantShape (l : List Char) : Bool :=
  match shapeCore l with
  | some rest => shapeTail rest
  | none => false

/-- `True` when the list does not start with a digit (used to delimit
digit runs in the soundness arguments). -/
def headND : List Char → Prop
  | [] => True
  | c :: _ => isDigitC c = false

/-! ## Theorems -/

/-! ### The deletion loop (C1, C2, C6, C7) -/

theorem runDeletion_outcomes (api : String → Wire) (es : List Entry) :
    (runDeletion api es).outcomes = es.map fun e => (processEntry api e).1 := by
  induction es with
  | nil => rfl
  | cons e es ih => simp [runDeletion, ih]

theorem runDeletion_deleted_count (api : String → Wire) (es : List Entry) :
    (runDeletion api es).deleted
      = (runDeletion api es).outcomes.countP fun o => decide (o = Outcome.deleted) := by
  induction es with
  | nil => rfl
  | cons e es ih =>
    simp only [runDeletion, List.countP_cons, ih]
    by_cases h : (processEntry api e).1 = Outcome.deleted <;> simp [h] <;> omega

theorem runDeletion_failed_count (api : String → Wire) (es : List Entry) :
    (runDeletion api es).failed
      = (runDeletion api es).outcomes.countP fun o => decide (o ≠ Outcome.deleted) := by
  induction es with
  | nil => rfl
  | cons e es ih =>
    simp only [runDeletion, List.countP_cons, ih]
    by_cases h : (processEntry api e).1 = Outcome.deleted <;> simp [h] <;> omega

theorem runDeletion_length (api : String → Wire) (es : List Entry) :
    (runDeletion api es).deleted + (runDeletion api es).failed = es.length := by
  induction es with
  | nil => rfl
  | cons e es ih =>
    simp only [runDeletion, List.length_cons]
    by_cases h : (processEntry api e).1 = Outcome.deleted <;> simp [h] <;> omega

/-- C1: once confirmation is granted, the deletion loop processes every
entry exactly once and never aborts early — the outcome list is exactly
the per-entry classification of each entry in order — and on completion
`deleted_count + failed_count` equals the number of expired entries, with
exactly one of the two counters incremented per entry (`deleted_count`
counts the `deleted` outcomes and `failed_count` all others). -/
theorem confirmed_loop_accounting (api : String → Wire) (entries : List Entry)
    (input : String) (h : confirmGranted input = true) :
    (deletionSection entries input api).deleted + (deletionSection entries input api).failed
        = entries.length
    ∧ (deletionSection entries input api).outcomes
        = (entries.map fun e => (processEntry api e).1)
    ∧ (deletionSection entries input api).deleted
        = ((deletionSection entries input api).outcomes.countP fun o =>
            decide (o = Outcome.deleted))
    ∧ (deletionSection entries input api).failed
        = ((deletionSection entries input api).outcomes.countP fun o =>
            decide (o ≠ Outcome.deleted)) := by
  unfold deletionSection
  by_cases he : entries.isEmpty
  · rw [List.isEmpty_iff] at he
    subst he
    simp
  · simp only [he, if_false, h, if_true]
    exact ⟨runDeletion_length api entries, runDeletion_outcomes api entries,
      runDeletion_deleted_count api entries, runDeletion_failed_count api entries⟩

theorem confirmed_loop_accounting_witness :
    (deletionSection
        [⟨"W1", "application", some "app-42", some "2020-01-01T00:00:00Z", "N/A"⟩,
         ⟨"W2", "unknown_kind", some "x", some "2020-01-01T00:00:00Z", "N/A"⟩]
        "DELETE" (fun _ => .response 204 .empty)).deleted
      + (deletionSection
        [⟨"W1", "application", some "app-42", some "2020-01-01T00:00:00Z", "N/A"⟩,
         ⟨"W2", "unknown_kind", some "x", some "2020-01-01T00:00:00Z", "N/A"⟩]
        "DELETE" (fun _ => .response 204 .empty)).failed = 2
    ∧ (deletionSection
        [⟨"W1", "application", some "app-42", some "2020-01-01T00:00:00Z", "N/A"⟩,
         ⟨"W2", "unknown_kind", some "x", some "2020-01-01T00:00:00Z", "N/A"⟩]
        "DELETE" (fun _ => .response 204 .empty)).outcomes
      = ([⟨"W1", "application", some "app-42", some "2020-01-01T00:00:00Z", "N/A"⟩,
          ⟨"W2", "unknown_kind", some "x", some "2020-01-01T00:00:00Z", "N/A"⟩].map
          fun e => (processEntry (fun _ => .response 204 .empty) e).1) := by
  have h := confirmed_loop_accounting (fun _ => .response 204 .empty)
    [⟨"W1", "application", some "app-42", some "2020-01-01T00:00:00Z", "N/A"⟩,
     ⟨"W2", "unknown_kind", some "x", some "2020-01-01T00:00:00Z", "N/A"⟩]
    "DELETE" (by decide)
  exact ⟨h.1, h.2.1⟩

/-- C2 counterexample: a "no content" (204) status is not the only result
the loop counts as a successful deletion — a 200 response whose body
decodes to a truthy JSON value is returned by `make_api_request` as that
value, which the loop's `if success:` also counts as `deleted`. -/
theorem non204_truthy_json_counted_deleted :
    classifyApiOutcome (.response 200 (.json true)) = Outcome.deleted
    ∧ (200 : Nat) ≠ 204 := by decide

/-- C2 (amended): the loop counts a deletion attempt as `deleted` exactly
when `make_api_request` returns a truthy value: a 204 status on the
DELETE, or any non-error response other than a 200 with empty body whose
body decodes to truthy JSON.  An explicit server rejection (a 4xx/5xx
status turned into `HTTPError` by `raise_for_status`) yields
`rejected-by-server`; a transport-level failure (timeout, connection
failure, or an undecodable body) yields `rejected-transport-error`; a
response accepted by the helper but falsy (200 with empty body → `[]`, or
falsy JSON) is likewise counted as a failure.  Every non-`deleted`
outcome increments the failed count. -/
theorem api_outcome_classification :
    (∀ st b, classifyApiOutcome (.response st b) = Outcome.deleted ↔
      (¬(400 ≤ st ∧ st < 600) ∧
        (st = 204 ∨ (¬(st = 200 ∧ b = Body.empty) ∧ b = Body.json true))))
    ∧ classifyApiOutcome .timeout = Outcome.rejectedTransportError
    ∧ classifyApiOutcome .connError = Outcome.rejectedTransportError
    ∧ (∀ st b, classifyApiOutcome (.response st b) = Outcome.rejectedByServer ↔
        (400 ≤ st ∧ st < 600))
    ∧ (∀ st b, classifyApiOutcome (.response st b) = Outcome.rejectedTransportError ↔
        (¬(400 ≤ st ∧ st < 600) ∧ st ≠ 204 ∧ ¬(st = 200 ∧ b = Body.empty) ∧
          (b = Body.empty ∨ b = Body.malformed)))
    ∧ (∀ st b, classifyApiOutcome (.response st b) = Outcome.rejectedFalsyResponse ↔
        (¬(400 ≤ st ∧ st < 600) ∧ st ≠ 204 ∧
          ((st = 200 ∧ b = Body.empty) ∨ b = Body.json false)))
    ∧ (∀ (api : String → Wire) (e : Entry),
      (runDeletion api [e]).deleted = (if (processEntry api e).1 = Outcome.deleted then 1 else 0)
      ∧ (runDeletion api [e]).failed
          = (if (processEntry api e).1 = Outcome.deleted then 0 else 1)) := by
  have hcases : ∀ st b, ∀ P : Prop,
      ((400 ≤ st ∧ st < 600 → P) →
       (¬(400 ≤ st ∧ st < 600) → st = 204 → P) →
       (¬(400 ≤ st ∧ st < 600) → st ≠ 204 → (st = 200 ∧ b = Body.empty) → P) →
       (¬(400 ≤ st ∧ st < 600) → st ≠ 204 → ¬(st = 200 ∧ b = Body.empty) → P) → P) := by
    intro st b P h1 h2 h3 h4
    by_cases hErr : 400 ≤ st ∧ st < 600
    · exact h1 hErr
    · by_cases h204 : st = 204
      · exact h2 hErr h204
      · by_cases h200 : st = 200 ∧ b = Body.empty
        · exact h3 hErr h204 h200
        · exact h4 hErr h204 h200
  have key : ∀ st b, classifyApiOutcome (.response st b) =
      (if 400 ≤ st ∧ st < 600 then Outcome.rejectedByServer
       else if st = 204 then Outcome.deleted
       else if st = 200 ∧ b = Body.empty then Outcome.rejectedFalsyResponse
       else match b with
            | Body.json true => Outcome.deleted
            | Body.json false => Outcome.rejectedFalsyResponse
            | _ => Outcome.rejectedTransportError) := by
    intro st b
    refine hcases st b _ ?_ ?_ ?_ ?_
    · intro hErr
      simp [classifyApiOutcome, make_api_request, hErr]
    · intro hErr h204
      simp [classifyApiOutcome, make_api_request, hErr, h204, pyTruthy]
    · intro hErr h204 h200
      simp [classifyApiOutcome, make_api_request, hErr, h204, h200, pyTruthy]
    · intro hErr h204 h200
      cases b with
      | empty =>
        have h200' : ¬ st = 200 := fun h => h200 ⟨h, rfl⟩
        simp [classifyApiOutcome, make_api_request, hErr, h204, h200, h200', pyTruthy]
      | json t =>
        cases t <;>
          simp [classifyApiOutcome, make_api_request, hErr, h204, h200, pyTruthy]
      | malformed =>
        simp [classifyApiOutcome, make_api_request, hErr, h204, h200, pyTruthy]
  refine ⟨?_, by simp [classifyApiOutcome, make_api_request],
    by simp [classifyApiOutcome, make_api_request], ?_, ?_, ?_, ?_⟩
  · intro st b
    rw [key]
    clear key hcases
    cases b with
    | empty => split_ifs with h1 h2 h3 <;> simp_all
    | json t => cases t <;> split_ifs with h1 h2 h3 <;> simp_all
    | malformed => split_ifs with h1 h2 h3 <;> simp_all
  · intro st b
    rw [key]
    clear key hcases
    cases b with
    | empty => split_ifs with h1 h2 h3 <;> simp_all
    | json t => cases t <;> split_ifs with h1 h2 h3 <;> simp_all
    | malformed => split_ifs with h1 h2 h3 <;> simp_all
  · intro st b
    rw [key]
    clear key hcases
    cases b with
    | empty => split_ifs with h1 h2 h3 <;> simp_all
    | json t => cases t <;> split_ifs with h1 h2 h3 <;> simp_all
    | malformed => split_ifs with h1 h2 h3 <;> simp_all
  · intro st b
    rw [key]
    clear key hcases
    cases b with
    | empty => split_ifs with h1 h2 h3 <;> simp_all
    | json t => cases t <;> split_ifs with h1 h2 h3 <;> simp_all
    | malformed => split_ifs with h1 h2 h3 <;> simp_all
  · intro api e
    by_cases h : (processEntry api e).1 = Outcome.deleted <;>
      simp [runDeletion, h]

/-! ### The scope resolver (C3) -/

/-- C3 counterexample: the declared scope-kind `repository-group` (in
either spelling) is not in `SCOPE_TYPE_MAP`, so the resolver returns no
path token for it; the map's fifth key is `repository_container`. -/
theorem repository_group_not_resolved :
    SCOPE_TYPE_MAP "repository-group" = none
    ∧ SCOPE_TYPE_MAP "repository_group" = none
    ∧ SCOPE_TYPE_MAP "repository_container" = some "repository_container" := by decide

/-- C3 (amended): for every scope-kind in the map's vocabulary
{root_organization, organization, application, repository,
repository_container} the resolver returns a path token, with
`root_organization` collapsing onto the same token as `organization`; for
every scope-kind outside that vocabulary it returns none. -/
theorem scope_resolution :
    SCOPE_TYPE_MAP "root_organization" = some "organization"
    ∧ SCOPE_TYPE_MAP "organization" = some "organization"
    ∧ SCOPE_TYPE_MAP "application" = some "application"
    ∧ SCOPE_TYPE_MAP "repository" = some "repository"
    ∧ SCOPE_TYPE_MAP "repository_container" = some "repository_container"
    ∧ ∀ s : String, s ≠ "root_organization" → s ≠ "organization" → s ≠ "application" →
        s ≠ "repository" → s ≠ "repository_container" → SCOPE_TYPE_MAP s = none := by
  refine ⟨by decide, by decide, by decide, by decide, by decide, ?_⟩
  intro s h1 h2 h3 h4 h5
  simp [SCOPE_TYPE_MAP, h1, h2, h3, h4, h5]

theorem scope_resolution_witness : SCOPE_TYPE_MAP "unknown_kind" = none :=
  scope_resolution.2.2.2.2.2 "unknown_kind" (by decide) (by decide) (by decide) (by decide)
    (by decide)

/-! ### Per-entry gatekeeping before the API call (C6) -/

/-- C6: for every expired entry, an unknown scope type yields
`rejected-unknown-scope` with the failed count incremented and no API
call; otherwise a missing or empty scope id yields
`rejected-missing-scope-id` with the failed count incremented and no API
call; only otherwise is the DELETE issued, at
`policyWaivers/{scopeToken}/{scopeIdentifier}/{waiverIdentifier}`. -/
theorem entry_gatekeeping (api : String → Wire) (e : Entry) :
    (SCOPE_TYPE_MAP e.scopeType = none →
      processEntry api e = (Outcome.rejectedUnknownScope, 0)
      ∧ runDeletion api [e] = ⟨0, 1, [Outcome.rejectedUnknownScope], 0⟩)
    ∧ (∀ tok, SCOPE_TYPE_MAP e.scopeType = some tok →
        ((e.scopeId = none ∨ e.scopeId = some "") →
          processEntry api e = (Outcome.rejectedMissingScopeId, 0)
          ∧ runDeletion api [e] = ⟨0, 1, [Outcome.rejectedMissingScopeId], 0⟩)
        ∧ (∀ oid, e.scopeId = some oid → oid ≠ "" →
            processEntry api e =
              (classifyApiOutcome (api ("policyWaivers/" ++ tok ++ "/" ++ oid ++ "/" ++
                e.waiverId)), 1))) := by
  constructor
  · intro hNone
    have hp : processEntry api e = (Outcome.rejectedUnknownScope, 0) := by
      unfold processEntry
      rw [hNone]
    exact ⟨hp, by simp [runDeletion, hp]⟩
  · intro tok hTok
    constructor
    · intro hMiss
      have hp : processEntry api e = (Outcome.rejectedMissingScopeId, 0) := by
        unfold processEntry
        rw [hTok]
        rcases hMiss with h | h <;> rw [h] <;> simp
      exact ⟨hp, by simp [runDeletion, hp]⟩
    · intro oid hOid hNe
      unfold processEntry
      rw [hTok, hOid]
      simp [hNe]

theorem entry_gatekeeping_witness :
    processEntry (fun _ => Wire.response 204 Body.empty)
        ⟨"W1", "unknown_kind", some "x", none, "N/A"⟩
      = (Outcome.rejectedUnknownScope, 0)
    ∧ runDeletion (fun _ => Wire.response 204 Body.empty)
        [⟨"W1", "unknown_kind", some "x", none, "N/A"⟩]
      = ⟨0, 1, [Outcome.rejectedUnknownScope], 0⟩ :=
  (entry_gatekeeping (fun _ => Wire.response 204 Body.empty)
    ⟨"W1", "unknown_kind", some "x", none, "N/A"⟩).1 (by decide)

/-! ### Empty set and cancellation (C7) -/

/-- C7: with no expired waivers the deletion section returns immediately
with zero counts, never invoking the confirmation prompt or the API
client; with a non-empty expired set the prompt is invoked exactly once,
and a declined confirmation returns zero counts and zero API calls. -/
theorem empty_and_cancellation (entries : List Entry) (input : String) (api : String → Wire) :
    (entries = [] → deletionSection entries input api = ⟨0, 0, [], 0, 0⟩)
    ∧ (entries ≠ [] → (deletionSection entries input api).confirmPrompts = 1
        ∧ (confirmGranted input = false →
            deletionSection entries input api = ⟨0, 0, [], 1, 0⟩)) := by
  constructor
  · intro h
    subst h
    rfl
  · intro h
    have hne : entries.isEmpty = false := by
      cases entries with
      | nil => exact absurd rfl h
      | cons a l => rfl
    constructor
    · unfold deletionSection
      rw [hne]
      by_cases hc : confirmGranted input <;> simp [hc]
    · intro hc
      unfold deletionSection
      rw [hne, hc]
      rfl

theorem empty_and_cancellation_witness :
    deletionSection [] "no" (fun _ => Wire.timeout) = ⟨0, 0, [], 0, 0⟩
    ∧ (deletionSection [⟨"W1", "application", some "a", none, "N/A"⟩] "no"
        (fun _ => Wire.timeout)).confirmPrompts = 1
    ∧ deletionSection [⟨"W1", "application", some "a", none, "N/A"⟩] "no"
        (fun _ => Wire.timeout) = ⟨0, 0, [], 1, 0⟩ :=
  ⟨(empty_and_cancellation [] "no" (fun _ => Wire.timeout)).1 rfl,
   ((empty_and_cancellation [⟨"W1", "application", some "a", none, "N/A"⟩] "no"
      (fun _ => Wire.timeout)).2 (by decide)).1,
   ((empty_and_cancellation [⟨"W1", "application", some "a", none, "N/A"⟩] "no"
      (fun _ => Wire.timeout)).2 (by decide)).2 (by decide)⟩

/-! ### The confirmation gate (C10) -/

theorem upper_eq_iff_lower_eq (x U L : Nat) (hUL : U + 32 = L) (h65 : 65 ≤ U) (h90 : U ≤ 90) :
    ((if 97 ≤ x ∧ x ≤ 122 then x - 32 else x) = U
      ↔ (if 65 ≤ x ∧ x ≤ 90 then x + 32 else x) = L) := by
  split_ifs <;> omega

theorem pyUpper_DELETE_iff (l : List Nat) :
    pyUpper l = strCodes "DELETE" ↔ pyLower l = strCodes "delete" := by
  have hD : strCodes "DELETE" = [68, 69, 76, 69, 84, 69] := rfl
  have hd : strCodes "delete" = [100, 101, 108, 101, 116, 101] := rfl
  rw [hD, hd]
  unfold pyUpper pyLower
  rcases l with _ | ⟨a, _ | ⟨b, _ | ⟨c, _ | ⟨d, _ | ⟨e, _ | ⟨f, _ | ⟨g, t⟩⟩⟩⟩⟩⟩⟩ <;>
    simp only [List.map_nil, List.map_cons, List.cons.injEq, and_true, List.cons_ne_nil,
      iff_self, ne_eq]
  · simp
  · simp
  · simp
  · simp
  · simp
  · simp
  · constructor <;> rintro ⟨h1, h2, h3, h4, h5, h6⟩ <;>
      refine ⟨?_, ?_, ?_, ?_, ?_, ?_⟩
    · exact (upper_eq_iff_lower_eq a 68 100 rfl (by omega) (by omega)).mp h1
    · exact (upper_eq_iff_lower_eq b 69 101 rfl (by omega) (by omega)).mp h2
    · exact (upper_eq_iff_lower_eq c 76 108 rfl (by omega) (by omega)).mp h3
    · exact (upper_eq_iff_lower_eq d 69 101 rfl (by omega) (by omega)).mp h4
    · exact (upper_eq_iff_lower_eq e 84 116 rfl (by omega) (by omega)).mp h5
    · exact (upper_eq_iff_lower_eq f 69 101 rfl (by omega) (by omega)).mp h6
    · exact (upper_eq_iff_lower_eq a 68 100 rfl (by omega) (by omega)).mpr h1
    · exact (upper_eq_iff_lower_eq b 69 101 rfl (by omega) (by omega)).mpr h2
    · exact (upper_eq_iff_lower_eq c 76 108 rfl (by omega) (by omega)).mpr h3
    · exact (upper_eq_iff_lower_eq d 69 101 rfl (by omega) (by omega)).mpr h4
    · exact (upper_eq_iff_lower_eq e 84 116 rfl (by omega) (by omega)).mpr h5
    · exact (upper_eq_iff_lower_eq f 69 101 rfl (by omega) (by omega)).mpr h6
  · simp

/-- C10: the confirmation gate grants deletion exactly when the operator's
input, stripped of surrounding whitespace and case-folded, equals the
token DELETE — so an input such as a spaced lowercase " delete " confirms
— and every other input, including the empty input, cancels. -/
theorem confirmation_gate (s : String) :
    (confirmGranted s = true ↔ pyLower (pyStrip (strCodes s)) = strCodes "delete")
    ∧ confirmGranted " delete " = true
    ∧ confirmGranted "" = false := by
  refine ⟨?_, by decide, by decide⟩
  rw [confirmGranted, beq_iff_eq]
  exact pyUpper_DELETE_iff (pyStrip (strCodes s))

/-! ### Expiration classification (C4, C5) -/

theorem classify_expired_eq (now : Int) (rows : List Row) :
    (classify now rows).1
      = (rows.filter fun r => classifyRow now r == RowClass.expired).map entryOf := by
  induction rows with
  | nil => rfl
  | cons r rs ih =>
    cases hE : r.expiry with
    | none => simp [classify, classifyRow, hE, ih]
    | some e =>
      cases hP : parseChars e.data with
      | none => simp [classify, classifyRow, hE, hP, ih]
      | some t =>
        by_cases hT : t < now <;> simp [classify, classifyRow, hE, hP, hT, ih]

theorem classify_skipped_eq (now : Int) (rows : List Row) :
    (classify now rows).2
      = (rows.filter fun r => classifyRow now r == RowClass.skippedUnparseable).map
          fun r => (r.waiverId, r.expiry.getD "") := by
  induction rows with
  | nil => rfl
  | cons r rs ih =>
    cases hE : r.expiry with
    | none => simp [classify, classifyRow, hE, ih]
    | some e =>
      cases hP : parseChars e.data with
      | none => simp [classify, classifyRow, hE, hP, ih]
      | some t =>
        by_cases hT : t < now <;> simp [classify, classifyRow, hE, hP, hT, ih]

/-- C5: classification is a stable partition — the expired output is the
in-order sublist of rows classified expired, the unparseable-skip list is
the in-order sublist of rows whose expiration failed to parse, the three
per-row classes are mutually exclusive and exhaustive (their counts sum
to the input length), and a row with an absent raw expiration is silently
excluded. -/
theorem classification_partition (now : Int) (rows : List Row) :
    (classify now rows).1
      = (rows.filter fun r => classifyRow now r == RowClass.expired).map entryOf
    ∧ (classify now rows).2
      = (rows.filter fun r => classifyRow now r == RowClass.skippedUnparseable).map
          (fun r => (r.waiverId, r.expiry.getD ""))
    ∧ (rows.countP fun r => classifyRow now r == RowClass.expired)
        + (rows.countP fun r => classifyRow now r == RowClass.skippedUnparseable)
        + (rows.countP fun r => classifyRow now r == RowClass.excluded) = rows.length
    ∧ (∀ r : Row, r.expiry = none → classifyRow now r = RowClass.excluded) := by
  refine ⟨classify_expired_eq now rows, classify_skipped_eq now rows, ?_, ?_⟩
  · induction rows with
    | nil => rfl
    | cons r rs ih =>
      simp only [List.countP_cons, List.length_cons]
      cases hC : classifyRow now r <;> simp [hC] <;> omega
  · intro r h
    unfold classifyRow
    rw [h]

theorem classification_partition_witness :
    (classify 63839750400000000
        [⟨"W1", "application", some "app-42", some "banana", none⟩,
         ⟨"W2", "application", some "app-43", some "2020-01-01T00:00:00Z", none⟩]).1
      = ([⟨"W1", "application", some "app-42", some "banana", none⟩,
          ⟨"W2", "application", some "app-43", some "2020-01-01T00:00:00Z", none⟩].filter
            fun r => classifyRow 63839750400000000 r == RowClass.expired).map entryOf
    ∧ classifyRow 63839750400000000 ⟨"W3", "application", some "a", none, none⟩
        = RowClass.excluded :=
  ⟨(classification_partition 63839750400000000
      [⟨"W1", "application", some "app-42", some "banana", none⟩,
       ⟨"W2", "application", some "app-43", some "2020-01-01T00:00:00Z", none⟩]).1,
   (classification_partition 63839750400000000 []).2.2.2
      ⟨"W3", "application", some "a", none, none⟩ rfl⟩

/-- C4: a record whose expiration parses is classified expired exactly
when the parsed instant is strictly earlier than the reference instant; a
parsed expiration equal to the reference instant is not expired. -/
theorem strict_expiry_boundary (now t : Int) (r : Row) (e : String)
    (hE : r.expiry = some e) (hP : parseChars e.data = some t) :
    (classifyRow now r = RowClass.expired ↔ t < now)
    ∧ (t = now → classifyRow now r = RowClass.excluded)
    ∧ (classify now [r]).1 = (if t < now then [entryOf r] else []) := by
  refine ⟨?_, ?_, ?_⟩
  · by_cases hT : t < now <;> simp [classifyRow, hE, hP, hT]
  · intro hEq
    subst hEq
    simp [classifyRow, hE, hP]
  · by_cases hT : t < now <;> simp [classify, hE, hP, hT]

theorem strict_expiry_boundary_witness :
    (classifyRow 63839750400000000
        ⟨"W1", "application", some "app-42", some "2020-01-01T00:00:00Z", none⟩
        = RowClass.expired ↔
      (63713520000000000 : Int) < 63839750400000000)
    ∧ classifyRow 63713520000000000
        ⟨"W1", "application", some "app-42", some "2020-01-01T00:00:00Z", none⟩
        = RowClass.excluded :=
  ⟨(strict_expiry_boundary 63839750400000000 63713520000000000
      ⟨"W1", "application", some "app-42", some "2020-01-01T00:00:00Z", none⟩
      "2020-01-01T00:00:00Z" rfl (by decide)).1,
   (strict_expiry_boundary 63713520000000000 63713520000000000
      ⟨"W1", "application", some "app-42", some "2020-01-01T00:00:00Z", none⟩
      "2020-01-01T00:00:00Z" rfl (by decide)).2.1 rfl⟩

/-! ### Round-trip lemmas for the timestamp Normalizer (C8) -/

theorem digitChar_isDigit (n : Nat) : isDigitC (digitChar n) = true := by
  unfold digitChar
  split_ifs <;> decide

theorem digitChar_spec (n : Nat) (h : n ≤ 9) :
    isDigitC (digitChar n) = true ∧ digitVal (digitChar n) = n := by
  refine ⟨digitChar_isDigit n, ?_⟩
  interval_cases n <;> decide

theorem digitChar_ne_Z (n : Nat) : digitChar n ≠ 'Z' := by
  intro h
  have hd := digitChar_isDigit n
  rw [h] at hd
  exact absurd hd (by decide)

theorem read4_pad4 (y : Nat) (rest : List Char) (h : y ≤ 9999) :
    read4 (pad4 y ++ rest) = some (y, rest) := by
  have h1 := digitChar_spec (y / 1000) (by omega)
  have h2 := digitChar_spec (y / 100 % 10) (by omega)
  have h3 := digitChar_spec (y / 10 % 10) (by omega)
  have h4 := digitChar_spec (y % 10) (by omega)
  simp [pad4, read4, h1.1, h2.1, h3.1, h4.1, h1.2, h2.2, h3.2, h4.2]
  omega

theorem read12_pad2 (one two : Nat → Bool) (v : Nat) (rest : List Char)
    (h : v ≤ 99) (h2 : two v = true) :
    read12 one two (pad2 v ++ rest) = some (v, rest) := by
  have d1 := digitChar_spec (v / 10) (by omega)
  have d2 := digitChar_spec (v % 10) (by omega)
  have hv : 10 * (v / 10) + v % 10 = v := by omega
  cases rest with
  | nil => simp [pad2, read12, d1.1, d2.1, d1.2, d2.2, hv, h2]
  | cons c cs => simp [pad2, read12, d1.1, d2.1, d1.2, d2.2, hv, h2]

theorem expectCh_cons (c : Char) (rest : List Char) : expectCh c (c :: rest) = some rest := by
  simp [expectCh]

theorem expectT_T (rest : List Char) : expectT ('T' :: rest) = some rest := by
  simp [expectT]

theorem readYMDHMS_render (t : YMDHMS) (rest : List Char)
    (hy2 : t.y ≤ 9999) (hm1 : 1 ≤ t.m) (hm2 : t.m ≤ 12)
    (hd1 : 1 ≤ t.d) (hd2 : t.d ≤ 31) (hh : t.h ≤ 23)
    (hmi : t.mi ≤ 59) (hs : t.s ≤ 59) :
    readYMDHMS (renderCore t ++ rest) = some (t, rest) := by
  have hmB : monthTwo t.m = true := by simp [monthTwo]; omega
  have hdB : dayTwo t.d = true := by simp [dayTwo]; omega
  have hhB : hourTwo t.h = true := by simp [hourTwo]; omega
  have hmiB : minTwo t.mi = true := by simp [minTwo]; omega
  have hsB : secTwo t.s = true := by simp [secTwo]; omega
  unfold readYMDHMS
  simp only [renderCore, List.append_assoc, List.cons_append]
  rw [read4_pad4 _ _ hy2]
  simp only [Option.some_bind]
  rw [expectCh_cons]
  simp only [Option.some_bind]
  rw [read12_pad2 _ _ _ _ (by omega) hmB]
  simp only [Option.some_bind]
  rw [expectCh_cons]
  simp only [Option.some_bind]
  rw [read12_pad2 _ _ _ _ (by omega) hdB]
  simp only [Option.some_bind]
  rw [expectT_T]
  simp only [Option.some_bind]
  rw [read12_pad2 _ _ _ _ (by omega) hhB]
  simp only [Option.some_bind]
  rw [expectCh_cons]
  simp only [Option.some_bind]
  rw [read12_pad2 _ _ _ _ (by omega) hmiB]
  simp only [Option.some_bind]
  rw [expectCh_cons]
  simp only [Option.some_bind]
  rw [read12_pad2 _ _ _ _ (by omega) hsB]
  simp only [Option.some_bind]

theorem daysInMonth_le31 (y m : Nat) : daysInMonth y m ≤ 31 := by
  unfold daysInMonth
  split_ifs <;> omega

theorem validYMD_true (t : YMDHMS) (hy1 : 1 ≤ t.y) (hm1 : 1 ≤ t.m) (hm2 : t.m ≤ 12)
    (hd1 : 1 ≤ t.d) (hd2 : t.d ≤ daysInMonth t.y t.m) : validYMD t = true := by
  simp [validYMD]
  omega

theorem format1_render (t : YMDHMS)
    (hy1 : 1 ≤ t.y) (hy2 : t.y ≤ 9999) (hm1 : 1 ≤ t.m) (hm2 : t.m ≤ 12)
    (hd1 : 1 ≤ t.d) (hd2 : t.d ≤ daysInMonth t.y t.m) (hh : t.h ≤ 23)
    (hmi : t.mi ≤ 59) (hs : t.s ≤ 59) :
    format1 (renderCore t) = some (naiveMicros t 0) := by
  have hd31 : t.d ≤ 31 := le_trans hd2 (daysInMonth_le31 t.y t.m)
  have hr := readYMDHMS_render t [] hy2 hm1 hm2 hd1 hd31 hh hmi hs
  rw [List.append_nil] at hr
  unfold format1
  rw [hr]
  simp only [Option.some_bind]
  rw [if_pos ⟨trivial, validYMD_true t hy1 hm1 hm2 hd1 hd2⟩]

theorem format1_render_frac_none (t : YMDHMS) (tail : List Char)
    (hy2 : t.y ≤ 9999) (hm1 : 1 ≤ t.m) (hm2 : t.m ≤ 12)
    (hd1 : 1 ≤ t.d) (hd2 : t.d ≤ 31) (hh : t.h ≤ 23)
    (hmi : t.mi ≤ 59) (hs : t.s ≤ 59) :
    format1 (renderCore t ++ '.' :: tail) = none := by
  have hr := readYMDHMS_render t ('.' :: tail) hy2 hm1 hm2 hd1 hd2 hh hmi hs
  unfold format1
  rw [hr]
  simp

theorem fracMicroVal_pad6 (micro : Nat) (h : micro < 1000000) :
    fracMicroVal (pad6 micro) = micro := by
  have d1 := digitChar_spec (micro / 100000) (by omega)
  have d2 := digitChar_spec (micro / 10000 % 10) (by omega)
  have d3 := digitChar_spec (micro / 1000 % 10) (by omega)
  have d4 := digitChar_spec (micro / 100 % 10) (by omega)
  have d5 := digitChar_spec (micro / 10 % 10) (by omega)
  have d6 := digitChar_spec (micro % 10) (by omega)
  simp [fracMicroVal, pad6, d1.2, d2.2, d3.2, d4.2, d5.2, d6.2]
  omega

theorem readFrac_pad6 (micro : Nat) (h : micro < 1000000) :
    readFrac ('.' :: pad6 micro) = some (micro, []) := by
  have hall : (pad6 micro).takeWhile isDigitC = pad6 micro := by
    simp [pad6, List.takeWhile, digitChar_isDigit]
  have hlen : (pad6 micro).length = 6 := by simp [pad6]
  have ht : (pad6 micro).take 6 = pad6 micro := by simp [pad6]
  have hd : (pad6 micro).drop 6 = [] := by simp [pad6]
  simp only [readFrac, hall, hlen]
  simp [ht, hd, fracMicroVal_pad6 micro h]

theorem format2_render (t : YMDHMS) (micro : Nat)
    (hy1 : 1 ≤ t.y) (hy2 : t.y ≤ 9999) (hm1 : 1 ≤ t.m) (hm2 : t.m ≤ 12)
    (hd1 : 1 ≤ t.d) (hd2 : t.d ≤ daysInMonth t.y t.m) (hh : t.h ≤ 23)
    (hmi : t.mi ≤ 59) (hs : t.s ≤ 59) (hmicro : micro < 1000000) :
    format2 (renderCore t ++ '.' :: pad6 micro) = some (naiveMicros t micro) := by
  have hd31 : t.d ≤ 31 := le_trans hd2 (daysInMonth_le31 t.y t.m)
  have hr := readYMDHMS_render t ('.' :: pad6 micro) hy2 hm1 hm2 hd1 hd31 hh hmi hs
  unfold format2
  rw [hr]
  simp only [Option.some_bind]
  rw [readFrac_pad6 micro hmicro]
  simp only [Option.some_bind]
  rw [if_pos ⟨trivial, validYMD_true t hy1 hm1 hm2 hd1 hd2⟩]

theorem readZoff_render (neg : Bool) (oh om : Nat) (hoh : oh ≤ 23) (hom : om ≤ 59) :
    readZoff ((if neg then '-' else '+') :: pad2 oh ++ ':' :: pad2 om)
      = some (offsetMicros neg oh om, []) := by
  have a1 := digitChar_spec (oh / 10) (by omega)
  have a2 := digitChar_spec (oh % 10) (by omega)
  have b1 := digitChar_spec (om / 10) (by omega)
  have b2 := digitChar_spec (om % 10) (by omega)
  have hbound : (((((10 * (oh / 10) + oh % 10) * 3600 + (10 * (om / 10) + om % 10) * 60 + 0) *
      1000000 + 0 : Nat) : Int)) < 86400000000 := by
    have h1 : 10 * (oh / 10) + oh % 10 = oh := by omega
    have h2 : 10 * (om / 10) + om % 10 = om := by omega
    rw [h1, h2]
    omega
  cases neg with
  | false =>
    simp only [Bool.false_eq_true, if_false, pad2, List.cons_append, List.nil_append]
    simp only [readZoff, readOffSec]
    simp [a1.1, a2.1, b1.1, b2.1, a1.2, a2.2, b1.2, b2.2, offsetMicros, hbound]
    constructor
    · omega
    · push_cast
      omega
  | true =>
    simp only [if_true, pad2, List.cons_append, List.nil_append]
    simp only [readZoff, readOffSec]
    simp [a1.1, a2.1, b1.1, b2.1, a1.2, a2.2, b1.2, b2.2, offsetMicros, hbound]
    constructor
    · omega
    · push_cast
      omega

theorem format3_render (t : YMDHMS) (neg : Bool) (oh om : Nat)
    (hy1 : 1 ≤ t.y) (hy2 : t.y ≤ 9999) (hm1 : 1 ≤ t.m) (hm2 : t.m ≤ 12)
    (hd1 : 1 ≤ t.d) (hd2 : t.d ≤ daysInMonth t.y t.m) (hh : t.h ≤ 23)
    (hmi : t.mi ≤ 59) (hs : t.s ≤ 59) (hoh : oh ≤ 23) (hom : om ≤ 59) :
    format3 (renderCore t ++ (if neg then '-' else '+') :: pad2 oh ++ ':' :: pad2 om)
      = some (naiveMicros t 0 - offsetMicros neg oh om) := by
  have hd31 : t.d ≤ 31 := le_trans hd2 (daysInMonth_le31 t.y t.m)
  have hr := readYMDHMS_render t ((if neg then '-' else '+') :: pad2 oh ++ ':' :: pad2 om)
    hy2 hm1 hm2 hd1 hd31 hh hmi hs
  unfold format3
  rw [List.append_assoc, hr]
  simp only [Option.some_bind]
  rw [readZoff_render neg oh om hoh hom]
  simp only [Option.some_bind]
  rw [if_pos ⟨trivial, validYMD_true t hy1 hm1 hm2 hd1 hd2⟩]

theorem parse_renderZ (t : YMDHMS)
    (hy1 : 1 ≤ t.y) (hy2 : t.y ≤ 9999) (hm1 : 1 ≤ t.m) (hm2 : t.m ≤ 12)
    (hd1 : 1 ≤ t.d) (hd2 : t.d ≤ daysInMonth t.y t.m) (hh : t.h ≤ 23)
    (hmi : t.mi ≤ 59) (hs : t.s ≤ 59) :
    parseChars (renderZ t) = some (naiveMicros t 0) := by
  unfold parseChars renderZ
  rw [List.getLast?_concat, List.dropLast_concat, if_pos rfl,
    format1_render t hy1 hy2 hm1 hm2 hd1 hd2 hh hmi hs]

theorem parse_renderFracZ (t : YMDHMS) (micro : Nat)
    (hy1 : 1 ≤ t.y) (hy2 : t.y ≤ 9999) (hm1 : 1 ≤ t.m) (hm2 : t.m ≤ 12)
    (hd1 : 1 ≤ t.d) (hd2 : t.d ≤ daysInMonth t.y t.m) (hh : t.h ≤ 23)
    (hmi : t.mi ≤ 59) (hs : t.s ≤ 59) (hmicro : micro < 1000000) :
    parseChars (renderFracZ t micro) = some (naiveMicros t micro) := by
  have hd31 : t.d ≤ 31 := le_trans hd2 (daysInMonth_le31 t.y t.m)
  have hshape : renderFracZ t micro = (renderCore t ++ '.' :: pad6 micro) ++ ['Z'] := by
    simp [renderFracZ]
  rw [hshape]
  unfold parseChars
  rw [List.getLast?_concat, List.dropLast_concat, if_pos rfl,
    format1_render_frac_none t (pad6 micro) hy2 hm1 hm2 hd1 hd31 hh hmi hs]
  exact format2_render t micro hy1 hy2 hm1 hm2 hd1 hd2 hh hmi hs hmicro

theorem parse_renderOffset (t : YMDHMS) (neg : Bool) (oh om : Nat)
    (hy1 : 1 ≤ t.y) (hy2 : t.y ≤ 9999) (hm1 : 1 ≤ t.m) (hm2 : t.m ≤ 12)
    (hd1 : 1 ≤ t.d) (hd2 : t.d ≤ daysInMonth t.y t.m) (hh : t.h ≤ 23)
    (hmi : t.mi ≤ 59) (hs : t.s ≤ 59) (hoh : oh ≤ 23) (hom : om ≤ 59) :
    parseChars (renderOffset t neg oh om) = some (naiveMicros t 0 - offsetMicros neg oh om) := by
  have hshape : renderOffset t neg oh om
      = (renderCore t ++ (if neg then '-' else '+') :: digitChar (oh / 10) ::
          digitChar (oh % 10) :: ':' :: [digitChar (om / 10)]) ++ [digitChar (om % 10)] := by
    simp [renderOffset, pad2]
  unfold parseChars
  rw [hshape, List.getLast?_concat, if_neg (by simp [digitChar_ne_Z])]
  rw [← hshape]
  exact format3_render t neg oh om hy1 hy2 hm1 hm2 hd1 hd2 hh hmi hs hoh hom

/-- C8: for every timestamp string in one of the three accepted profiles
— `YYYY-MM-DDTHH:MM:SSZ`, `YYYY-MM-DDTHH:MM:SS.ffffffZ`, and
`YYYY-MM-DDTHH:MM:SS±HH:MM` rendered from any valid field tuple — the
Normalizer returns the correct absolute UTC instant: the UTC instant of
the fields, the same with the fractional microseconds, and the instant
normalized to UTC by subtracting the signed offset, respectively. -/
theorem normalizer_roundtrip (t : YMDHMS) (micro oh om : Nat) (neg : Bool)
    (hy1 : 1 ≤ t.y) (hy2 : t.y ≤ 9999) (hm1 : 1 ≤ t.m) (hm2 : t.m ≤ 12)
    (hd1 : 1 ≤ t.d) (hd2 : t.d ≤ daysInMonth t.y t.m) (hh : t.h ≤ 23)
    (hmi : t.mi ≤ 59) (hs : t.s ≤ 59) (hmicro : micro < 1000000)
    (hoh : oh ≤ 23) (hom : om ≤ 59) :
    parseChars (renderZ t) = some (naiveMicros t 0)
    ∧ parseChars (renderFracZ t micro) = some (naiveMicros t micro)
    ∧ parseChars (renderOffset t neg oh om)
        = some (naiveMicros t 0 - offsetMicros neg oh om) :=
  ⟨parse_renderZ t hy1 hy2 hm1 hm2 hd1 hd2 hh hmi hs,
   parse_renderFracZ t micro hy1 hy2 hm1 hm2 hd1 hd2 hh hmi hs hmicro,
   parse_renderOffset t neg oh om hy1 hy2 hm1 hm2 hd1 hd2 hh hmi hs hoh hom⟩

theorem normalizer_roundtrip_witness :
    parseChars (renderZ ⟨2024, 6, 15, 12, 30, 45⟩)
      = some (naiveMicros ⟨2024, 6, 15, 12, 30, 45⟩ 0)
    ∧ parseChars (renderFracZ ⟨2024, 6, 15, 12, 30, 45⟩ 123456)
      = some (naiveMicros ⟨2024, 6, 15, 12, 30, 45⟩ 123456)
    ∧ parseChars (renderOffset ⟨2024, 6, 15, 12, 30, 45⟩ true 5 30)
      = some (naiveMicros ⟨2024, 6, 15, 12, 30, 45⟩ 0 - offsetMicros true 5 30) :=
  normalizer_roundtrip ⟨2024, 6, 15, 12, 30, 45⟩ 123456 5 30 true
    (by decide) (by decide) (by decide) (by decide) (by decide) (by decide)
    (by decide) (by decide) (by decide) (by decide) (by decide) (by decide)

/-! ### Soundness of the Normalizer's accepted set (C9): every parseable
string has the tolerant profile shape -/

theorem headND_cons (c : Char) (l : List Char) (h : isDigitC c = false) : headND (c :: l) := h

theorem headND_nil : headND ([] : List Char) := trivial

theorem takeWhile_digits_append (ds rest : List Char) (h : ∀ c ∈ ds, isDigitC c = true)
    (h2 : headND rest) : (ds ++ rest).takeWhile isDigitC = ds := by
  induction ds with
  | nil =>
    cases rest with
    | nil => rfl
    | cons c cs =>
      simp only [List.nil_append]
      exact List.takeWhile_cons_of_neg (by simp [show isDigitC c = false from h2])
  | cons d ds ih =>
    simp only [List.cons_append]
    rw [List.takeWhile_cons_of_pos (h d (by simp)), ih (fun c hc => h c (by simp [hc]))]

theorem dropWhile_digits_append (ds rest : List Char) (h : ∀ c ∈ ds, isDigitC c = true)
    (h2 : headND rest) : (ds ++ rest).dropWhile isDigitC = rest := by
  induction ds with
  | nil =>
    cases rest with
    | nil => rfl
    | cons c cs =>
      simp only [List.nil_append]
      exact List.dropWhile_cons_of_neg (by simp [show isDigitC c = false from h2])
  | cons d ds ih =>
    simp only [List.cons_append]
    rw [List.dropWhile_cons_of_pos (h d (by simp)), ih (fun c hc => h c (by simp [hc]))]

theorem digitsSpan_append (ds rest : List Char) (h : ∀ c ∈ ds, isDigitC c = true)
    (h2 : headND rest) : digitsSpan (ds ++ rest) = (ds, rest) := by
  unfold digitsSpan
  rw [takeWhile_digits_append ds rest h h2, dropWhile_digits_append ds rest h h2]

theorem run12_on (ds rest : List Char) (h : ∀ c ∈ ds, isDigitC c = true)
    (h2 : headND rest) (hl1 : 1 ≤ ds.length) (hl2 : ds.length ≤ 2) :
    run12 (ds ++ rest) = some rest := by
  unfold run12
  rw [digitsSpan_append ds rest h h2]
  simp [hl1, hl2]

theorem sepRun_cons (c : Char) (l : List Char) : sepRun c (c :: l) = run12 l := by
  simp [sepRun]

theorem sepRunT_cons (c : Char) (l : List Char) (h : c = 'T' ∨ c = 't') :
    sepRunT (c :: l) = run12 l := by
  simp [sepRunT, h]

theorem shapeCore_eval (dsY dsM dsD : List Char) (cT : Char) (dsH dsMi dsS rest : List Char)
    (hdY : ∀ c ∈ dsY, isDigitC c = true) (hlY : dsY.length = 4)
    (hdM : ∀ c ∈ dsM, isDigitC c = true) (hM1 : 1 ≤ dsM.length) (hM2 : dsM.length ≤ 2)
    (hdD : ∀ c ∈ dsD, isDigitC c = true) (hD1 : 1 ≤ dsD.length) (hD2 : dsD.length ≤ 2)
    (hdH : ∀ c ∈ dsH, isDigitC c = true) (hH1 : 1 ≤ dsH.length) (hH2 : dsH.length ≤ 2)
    (hdMi : ∀ c ∈ dsMi, isDigitC c = true) (hMi1 : 1 ≤ dsMi.length) (hMi2 : dsMi.length ≤ 2)
    (hdS : ∀ c ∈ dsS, isDigitC c = true) (hS1 : 1 ≤ dsS.length) (hS2 : dsS.length ≤ 2)
    (hcT : cT = 'T' ∨ cT = 't') (hrest : headND rest) :
    shapeCore (dsY ++ '-' :: (dsM ++ '-' :: (dsD ++ cT :: (dsH ++ ':' ::
      (dsMi ++ ':' :: (dsS ++ rest)))))) = some rest := by
  have hcTnd : isDigitC cT = false := by
    rcases hcT with h | h <;> subst h <;> decide
  unfold shapeCore
  rw [digitsSpan_append dsY _ hdY (headND_cons _ _ (by decide))]
  simp only [hlY, if_pos rfl, reduceIte]
  rw [sepRun_cons, run12_on dsM _ hdM (headND_cons _ _ (by decide)) hM1 hM2]
  simp only [Option.some_bind]
  rw [sepRun_cons, run12_on dsD _ hdD (headND_cons _ _ hcTnd) hD1 hD2]
  simp only [Option.some_bind]
  rw [sepRunT_cons _ _ hcT, run12_on dsH _ hdH (headND_cons _ _ (by decide)) hH1 hH2]
  simp only [Option.some_bind]
  rw [sepRun_cons, run12_on dsMi _ hdMi (headND_cons _ _ (by decide)) hMi1 hMi2]
  simp only [Option.some_bind]
  rw [sepRun_cons, run12_on dsS _ hdS hrest hS1 hS2]

theorem read4_sound {l : List Char} {p : Nat × List Char} (h : read4 l = some p) :
    ∃ ds, l = ds ++ p.2 ∧ (∀ c ∈ ds, isDigitC c = true) ∧ ds.length = 4 := by
  match l, h with
  | a :: b :: c :: d :: rest, h =>
    simp only [read4] at h
    split_ifs at h with hdig
    simp only [Option.some.injEq] at h
    subst h
    simp only [Bool.and_eq_true] at hdig
    exact ⟨[a, b, c, d], by simp, by simp [hdig.1.1.1, hdig.1.1.2, hdig.1.2, hdig.2], rfl⟩

theorem read12_sound {one two : Nat → Bool} {l : List Char} {p : Nat × List Char}
    (h : read12 one two l = some p) :
    ∃ ds, l = ds ++ p.2 ∧ (∀ c ∈ ds, isDigitC c = true) ∧ 1 ≤ ds.length ∧ ds.length ≤ 2 := by
  match l, h with
  | [a], h =>
    simp only [read12] at h
    split_ifs at h with hdig
    simp only [Option.some.injEq] at h
    subst h
    simp only [Bool.and_eq_true] at hdig
    exact ⟨[a], by simp, by simp [hdig.1], by simp, by simp⟩
  | a :: b :: rest, h =>
    simp only [read12] at h
    split_ifs at h with h2 htwo h1 hone
    · simp only [Option.some.injEq] at h
      subst h
      simp only [Bool.and_eq_true] at h2
      exact ⟨[a, b], by simp, by simp [h2.1, h2.2], by simp, by simp⟩
    · simp only [Option.some.injEq] at h
      subst h
      exact ⟨[a], by simp, by simp [h1], by simp, by simp⟩

theorem expectCh_sound {c : Char} {l rest : List Char} (h : expectCh c l = some rest) :
    l = c :: rest := by
  match l, h with
  | x :: xs, h =>
    simp only [expectCh] at h
    split_ifs at h with hx
    simp only [Option.some.injEq] at h
    rw [hx, h]

theorem expectT_sound {l rest : List Char} (h : expectT l = some rest) :
    ∃ cT, l = cT :: rest ∧ (cT = 'T' ∨ cT = 't') := by
  match l, h with
  | x :: xs, h =>
    simp only [expectT] at h
    split_ifs at h with hx
    simp only [Option.some.injEq] at h
    exact ⟨x, by rw [h], hx⟩

theorem readYMDHMS_decomp {l : List Char} {t : YMDHMS} {rest : List Char}
    (h : readYMDHMS l = some (t, rest)) :
    ∃ dsY dsM dsD cT dsH dsMi dsS,
      l = dsY ++ '-' :: (dsM ++ '-' :: (dsD ++ cT :: (dsH ++ ':' ::
        (dsMi ++ ':' :: (dsS ++ rest)))))
      ∧ (∀ c ∈ dsY, isDigitC c = true) ∧ dsY.length = 4
      ∧ (∀ c ∈ dsM, isDigitC c = true) ∧ 1 ≤ dsM.length ∧ dsM.length ≤ 2
      ∧ (∀ c ∈ dsD, isDigitC c = true) ∧ 1 ≤ dsD.length ∧ dsD.length ≤ 2
      ∧ (∀ c ∈ dsH, isDigitC c = true) ∧ 1 ≤ dsH.length ∧ dsH.length ≤ 2
      ∧ (∀ c ∈ dsMi, isDigitC c = true) ∧ 1 ≤ dsMi.length ∧ dsMi.length ≤ 2
      ∧ (∀ c ∈ dsS, isDigitC c = true) ∧ 1 ≤ dsS.length ∧ dsS.length ≤ 2
      ∧ (cT = 'T' ∨ cT = 't') := by
  unfold readYMDHMS at h
  rw [Option.bind_eq_some] at h
  obtain ⟨py, h1, h⟩ := h
  rw [Option.bind_eq_some] at h
  obtain ⟨l1, h2, h⟩ := h
  rw [Option.bind_eq_some] at h
  obtain ⟨pm, h3, h⟩ := h
  rw [Option.bind_eq_some] at h
  obtain ⟨l2, h4, h⟩ := h
  rw [Option.bind_eq_some] at h
  obtain ⟨pdd, h5, h⟩ := h
  rw [Option.bind_eq_some] at h
  obtain ⟨l3, h6, h⟩ := h
  rw [Option.bind_eq_some] at h
  obtain ⟨ph, h7, h⟩ := h
  rw [Option.bind_eq_some] at h
  obtain ⟨l4, h8, h⟩ := h
  rw [Option.bind_eq_some] at h
  obtain ⟨pmi, h9, h⟩ := h
  rw [Option.bind_eq_some] at h
  obtain ⟨l5, h10, h⟩ := h
  rw [Option.bind_eq_some] at h
  obtain ⟨ps, h11, h⟩ := h
  have hrest : ps.2 = rest := by
    simp only [Option.some.injEq, Prod.mk.injEq] at h
    exact h.2
  obtain ⟨dsY, hlY, hdY, hlenY⟩ := read4_sound h1
  have hsep1 := expectCh_sound h2
  obtain ⟨dsM, hlM, hdM, hM1, hM2⟩ := read12_sound h3
  have hsep2 := expectCh_sound h4
  obtain ⟨dsD, hlD, hdD, hD1, hD2⟩ := read12_sound h5
  obtain ⟨cT, hsepT, hcT⟩ := expectT_sound h6
  obtain ⟨dsH, hlH, hdH, hH1, hH2⟩ := read12_sound h7
  have hsep3 := expectCh_sound h8
  obtain ⟨dsMi, hlMi, hdMi, hMi1, hMi2⟩ := read12_sound h9
  have hsep4 := expectCh_sound h10
  obtain ⟨dsS, hlS, hdS, hS1, hS2⟩ := read12_sound h11
  refine ⟨dsY, dsM, dsD, cT, dsH, dsMi, dsS, ?_, hdY, hlenY, hdM, hM1, hM2,
    hdD, hD1, hD2, hdH, hH1, hH2, hdMi, hMi1, hMi2, hdS, hS1, hS2, hcT⟩
  rw [hlY, hsep1, hlM, hsep2, hlD, hsepT, hlH, hsep3, hlMi, hsep4, hlS, hrest]

theorem readFrac_sound {l : List Char} {p : Nat × List Char} (h : readFrac l = some p) :
    ∃ fs, l = '.' :: (fs ++ p.2) ∧ (∀ c ∈ fs, isDigitC c = true)
      ∧ 1 ≤ fs.length ∧ fs.length ≤ 6 := by
  unfold readFrac at h
  split at h
  · rename_i rest
    simp only [] at h
    split_ifs at h with hfs
    simp only [Option.some.injEq] at h
    subst h
    have hle : (rest.takeWhile isDigitC).length ≤ rest.length :=
      (List.takeWhile_prefix isDigitC).length_le
    obtain ⟨tl, htl⟩ := List.takeWhile_prefix (l := rest) isDigitC
    set k := min 6 (rest.takeWhile isDigitC).length with hk
    refine ⟨rest.take k, ?_, ?_, ?_, ?_⟩
    · rw [List.take_append_drop]
    · intro c hc
      have hceq : rest.take k = (rest.takeWhile isDigitC).take k := by
        conv_lhs => rw [← htl]
        rw [List.take_append_of_le_length (by omega)]
      rw [hceq] at hc
      exact List.mem_takeWhile_imp (List.mem_of_mem_take hc)
    · rw [List.length_take]
      omega
    · rw [List.length_take]
      omega
  · exact absurd h (by simp)

theorem readOffFrac_sound {ss : Nat} {l : List Char} {r : Nat × Nat × List Char}
    (h : readOffFrac ss l = some r) (hnil : r.2.2 = []) :
    l = [] ∨
    (∃ fs, l = '.' :: fs ∧ (∀ c ∈ fs, isDigitC c = true) ∧ 1 ≤ fs.length ∧ fs.length ≤ 6) := by
  unfold readOffFrac at h
  split at h
  · rename_i rest
    simp only [] at h
    split_ifs at h with hfs
    · simp only [Option.some.injEq] at h
      subst h
      simp at hnil
    · simp only [Option.some.injEq] at h
      subst h
      simp only [] at hnil
      have hdrop : rest.length ≤ min 6 (rest.takeWhile isDigitC).length :=
        List.drop_eq_nil_iff_le.mp hnil
      have hle : (rest.takeWhile isDigitC).length ≤ rest.length :=
        (List.takeWhile_prefix isDigitC).length_le
      have hfeq : rest.takeWhile isDigitC = rest :=
        (List.takeWhile_prefix isDigitC).eq_of_length (by omega)
      right
      refine ⟨rest, rfl, ?_, ?_, ?_⟩
      · intro c hc
        have hcm : c ∈ rest.takeWhile isDigitC := by
          rw [hfeq]
          exact hc
        exact List.mem_takeWhile_imp hcm
      · omega
      · omega
  · simp only [Option.some.injEq] at h
    subst h
    left
    exact hnil

theorem readOffSec_sound {c1 : Bool} {l : List Char} {r : Nat × Nat × List Char}
    (h : readOffSec c1 l = some r) (hnil : r.2.2 = []) :
    l = [] ∨
    (∃ s1 s2 tail, l = ':' :: s1 :: s2 :: tail ∧ c1 = true
      ∧ isDigitC s1 = true ∧ isDigitC s2 = true
      ∧ (tail = [] ∨ ∃ fs, tail = '.' :: fs ∧ (∀ c ∈ fs, isDigitC c = true)
          ∧ 1 ≤ fs.length ∧ fs.length ≤ 6)) ∨
    (∃ s1 s2 tail, l = s1 :: s2 :: tail ∧ c1 = false
      ∧ isDigitC s1 = true ∧ isDigitC s2 = true
      ∧ (tail = [] ∨ ∃ fs, tail = '.' :: fs ∧ (∀ c ∈ fs, isDigitC c = true)
          ∧ 1 ≤ fs.length ∧ fs.length ≤ 6)) := by
  unfold readOffSec at h
  split at h
  · -- l = ':' :: a :: b :: rest
    rename_i a b rest
    split_ifs at h with hd hc1
    · -- digits accepted, c1 = true: the seconds take the colon style
      simp only [Bool.and_eq_true] at hd
      right
      left
      exact ⟨a, b, rest, rfl, hc1, hd.1.1, hd.1.2, readOffFrac_sound h hnil⟩
    · -- shape present but the regex did not take it: the group matches empty
      simp only [Option.some.injEq] at h
      subst h
      simp at hnil
  · -- l = a :: b :: rest without a leading colon
    rename_i a b rest hne
    split_ifs at h with hd hc1
    · simp only [Bool.and_eq_true] at hd
      right
      right
      exact ⟨a, b, rest, rfl, by simpa using hc1, hd.1.1, hd.1.2, readOffFrac_sound h hnil⟩
    · simp only [Option.some.injEq] at h
      subst h
      simp at hnil
  · -- fewer than two characters: the whole group is empty
    simp only [Option.some.injEq] at h
    subst h
    left
    exact hnil

theorem digitsSpan_digits (fs : List Char) (h : ∀ c ∈ fs, isDigitC c = true) :
    digitsSpan fs = (fs, []) := by
  have := digitsSpan_append fs [] h headND_nil
  simpa using this

theorem shapeFrac_eval (fs : List Char) (hd : ∀ c ∈ fs, isDigitC c = true)
    (h1 : 1 ≤ fs.length) (h6 : fs.length ≤ 6) : shapeFrac ('.' :: fs) = true := by
  simp [shapeFrac, digitsSpan_digits fs hd, h1, h6]

theorem shapeOffsetS_cons_eval (s1 s2 : Char) (tail : List Char)
    (h1 : isDigitC s1 = true) (h2 : isDigitC s2 = true) (hnd : headND tail) :
    shapeOffsetS (':' :: s1 :: s2 :: tail) = (decide (tail = []) || shapeFrac tail) := by
  unfold shapeOffsetS
  have hsp : digitsSpan (s1 :: s2 :: tail) = ([s1, s2], tail) := by
    have := digitsSpan_append [s1, s2] tail (by simp [h1, h2]) hnd
    simpa using this
  simp [hsp]

theorem shapeOffset_colon_eval (a b m1 m2 : Char) (tail : List Char)
    (ha : isDigitC a = true) (hb : isDigitC b = true)
    (hm1 : isDigitC m1 = true) (hm2 : isDigitC m2 = true) (hnd : headND tail) :
    shapeOffset (a :: b :: ':' :: m1 :: m2 :: tail) = shapeOffsetS tail := by
  have h1 : digitsSpan (a :: b :: ':' :: m1 :: m2 :: tail)
      = ([a, b], ':' :: m1 :: m2 :: tail) := by
    have := digitsSpan_append [a, b] (':' :: m1 :: m2 :: tail) (by simp [ha, hb])
      (headND_cons _ _ (by decide))
    simpa using this
  have h2 : digitsSpan (m1 :: m2 :: tail) = ([m1, m2], tail) := by
    have := digitsSpan_append [m1, m2] tail (by simp [hm1, hm2]) hnd
    simpa using this
  unfold shapeOffset
  rw [h1]
  simp only [List.length_cons, List.length_nil, if_pos rfl]
  unfold shapeOffsetM
  simp [h2]

theorem shapeOffset_compact_nosec (a b m1 m2 : Char)
    (ha : isDigitC a = true) (hb : isDigitC b = true)
    (hm1 : isDigitC m1 = true) (hm2 : isDigitC m2 = true) :
    shapeOffset [a, b, m1, m2] = true := by
  have h1 : digitsSpan [a, b, m1, m2] = ([a, b, m1, m2], []) :=
    digitsSpan_digits _ (by simp [ha, hb, hm1, hm2])
  unfold shapeOffset
  rw [h1]
  simp

theorem shapeOffset_compact_sec (a b m1 m2 s1 s2 : Char) (tail : List Char)
    (ha : isDigitC a = true) (hb : isDigitC b = true)
    (hm1 : isDigitC m1 = true) (hm2 : isDigitC m2 = true)
    (hs1 : isDigitC s1 = true) (hs2 : isDigitC s2 = true) (hnd : headND tail) :
    shapeOffset (a :: b :: m1 :: m2 :: s1 :: s2 :: tail)
      = (decide (tail = []) || shapeFrac tail) := by
  have h1 : digitsSpan (a :: b :: m1 :: m2 :: s1 :: s2 :: tail)
      = ([a, b, m1, m2, s1, s2], tail) := by
    have := digitsSpan_append [a, b, m1, m2, s1, s2] tail
      (by simp [ha, hb, hm1, hm2, hs1, hs2]) hnd
    simpa using this
  unfold shapeOffset
  rw [h1]
  simp

theorem headND_of_tail_cases {tail : List Char}
    (htail : tail = [] ∨ ∃ fs, tail = '.' :: fs ∧ (∀ c ∈ fs, isDigitC c = true)
      ∧ 1 ≤ fs.length ∧ fs.length ≤ 6) : headND tail := by
  rcases htail with rfl | ⟨fs, rfl, hfs, h1, h6⟩
  · exact headND_nil
  · exact headND_cons _ _ (by decide)

theorem shapeTailSec_true {tail : List Char}
    (htail : tail = [] ∨ ∃ fs, tail = '.' :: fs ∧ (∀ c ∈ fs, isDigitC c = true)
      ∧ 1 ≤ fs.length ∧ fs.length ≤ 6) :
    (decide (tail = []) || shapeFrac tail) = true := by
  rcases htail with rfl | ⟨fs, rfl, hfs, h1, h6⟩
  · simp
  · simp [shapeFrac_eval fs hfs h1 h6]

theorem readZoff_sound {l : List Char} {off : Int} (h : readZoff l = some (off, [])) :
    ∃ sgn r, l = sgn :: r ∧ (sgn = '+' ∨ sgn = '-') ∧ shapeOffset r = true := by
  rcases l with _ | ⟨sgn, rest⟩
  · simp [readZoff] at h
  simp only [readZoff] at h
  by_cases hsgn : sgn = '+' ∨ sgn = '-'
  swap
  · rw [if_neg hsgn] at h
    simp at h
  rw [if_pos hsgn] at h
  rcases rest with _ | ⟨a, rest1⟩
  · simp at h
  rcases rest1 with _ | ⟨b, rest2⟩
  · simp at h
  simp only [] at h
  refine ⟨sgn, a :: b :: rest2, rfl, hsgn, ?_⟩
  by_cases hab : (isDigitC a && isDigitC b) = true
  swap
  · rw [if_neg hab] at h
    simp at h
  rw [if_pos hab] at h
  simp only [Bool.and_eq_true] at hab
  rcases rest2 with _ | ⟨x, rest3⟩
  · simp at h
  by_cases hx : x = ':'
  · subst hx
    simp only [] at h
    simp only [if_true] at h
    rcases rest3 with _ | ⟨m1, rest3'⟩
    · simp at h
    rcases rest3' with _ | ⟨m2, rest4⟩
    · simp at h
    simp only [] at h
    by_cases hm : (isDigitC m1 && isDigitC m2 &&
        decide (10 * digitVal m1 + digitVal m2 ≤ 59)) = true
    swap
    · rw [if_neg hm] at h
      simp at h
    rw [if_pos hm] at h
    simp only [Bool.and_eq_true] at hm
    split at h
    · rename_i ss fr rest5 heq
      split at h
      · simp only [Option.some.injEq, Prod.mk.injEq] at h
        have hrest5 : rest5 = [] := h.2
        subst hrest5
        rcases readOffSec_sound heq rfl with hre | ⟨s1, s2, tail, hr4, _, hs1, hs2, htail⟩
          | ⟨s1, s2, tail, hr4, hcf, hs1, hs2, htail⟩
        · subst hre
          rw [shapeOffset_colon_eval a b m1 m2 [] hab.1 hab.2 hm.1.1 hm.1.2 headND_nil]
          simp [shapeOffsetS]
        · subst hr4
          rw [shapeOffset_colon_eval a b m1 m2 (':' :: s1 :: s2 :: tail) hab.1 hab.2
            hm.1.1 hm.1.2 (headND_cons _ _ (by decide))]
          rw [shapeOffsetS_cons_eval s1 s2 tail hs1 hs2 (headND_of_tail_cases htail)]
          exact shapeTailSec_true htail
        · simp at hcf
      · simp at h
    · simp at h
  · simp only [] at h
    rw [if_neg hx] at h
    simp only [] at h
    rcases rest3 with _ | ⟨m2, rest4⟩
    · simp at h
    simp only [] at h
    by_cases hm : (isDigitC x && isDigitC m2 &&
        decide (10 * digitVal x + digitVal m2 ≤ 59)) = true
    swap
    · rw [if_neg hm] at h
      simp at h
    rw [if_pos hm] at h
    simp only [Bool.and_eq_true] at hm
    split at h
    · rename_i ss fr rest5 heq
      split at h
      · simp only [Option.some.injEq, Prod.mk.injEq] at h
        have hrest5 : rest5 = [] := h.2
        subst hrest5
        rcases readOffSec_sound heq rfl with hre | ⟨s1, s2, tail, hr4, hcf, hs1, hs2, htail⟩
          | ⟨s1, s2, tail, hr4, _, hs1, hs2, htail⟩
        · subst hre
          exact shapeOffset_compact_nosec a b x m2 hab.1 hab.2 hm.1.1 hm.1.2
        · simp at hcf
        · subst hr4
          rw [shapeOffset_compact_sec a b x m2 s1 s2 tail hab.1 hab.2 hm.1.1 hm.1.2 hs1 hs2
            (headND_of_tail_cases htail)]
          exact shapeTailSec_true htail
      · simp at h
    · simp at h

theorem format1_sound {l : List Char} {v : Int} (h : format1 l = some v) :
    ∃ t : YMDHMS, readYMDHMS l = some (t, []) := by
  unfold format1 at h
  rw [Option.bind_eq_some] at h
  obtain ⟨p, hp, h⟩ := h
  rcases p with ⟨t, rest⟩
  split_ifs at h with hc
  obtain ⟨hrest, -⟩ := hc
  subst hrest
  exact ⟨t, hp⟩

theorem format2_sound {l : List Char} {v : Int} (h : format2 l = some v) :
    ∃ t fs, readYMDHMS l = some (t, '.' :: fs) ∧ (∀ c ∈ fs, isDigitC c = true)
      ∧ 1 ≤ fs.length ∧ fs.length ≤ 6 := by
  unfold format2 at h
  rw [Option.bind_eq_some] at h
  obtain ⟨p, hp, h⟩ := h
  rw [Option.bind_eq_some] at h
  obtain ⟨q, hq, h⟩ := h
  rcases p with ⟨t, rest⟩
  split_ifs at h with hc
  obtain ⟨fs, hfs, hdig, h1, h6⟩ := readFrac_sound hq
  rw [hc.1, List.append_nil] at hfs
  simp only [] at hfs
  subst hfs
  exact ⟨t, fs, hp, hdig, h1, h6⟩

theorem format3_sound {l : List Char} {v : Int} (h : format3 l = some v) :
    ∃ t sgn r, readYMDHMS l = some (t, sgn :: r) ∧ (sgn = '+' ∨ sgn = '-')
      ∧ shapeOffset r = true := by
  unfold format3 at h
  rw [Option.bind_eq_some] at h
  obtain ⟨p, hp, h⟩ := h
  rw [Option.bind_eq_some] at h
  obtain ⟨q, hq, h⟩ := h
  rcases p with ⟨t, rest⟩
  rcases q with ⟨off, qrest⟩
  split_ifs at h with hc
  have hqr : qrest = [] := hc.1
  subst hqr
  obtain ⟨sgn, r, hrest, hsgn, hsh⟩ := readZoff_sound hq
  simp only [] at hrest
  subst hrest
  exact ⟨t, sgn, r, hp, hsgn, hsh⟩

theorem parse_sound {l : List Char} {v : Int} (h : parseChars l = some v) :
    tolerantShape l = true := by
  unfold parseChars at h
  split_ifs at h with hz
  · have hl : l.dropLast ++ ['Z'] = l :=
      List.dropLast_append_getLast? 'Z' (Option.mem_def.mpr hz)
    cases hf1 : format1 l.dropLast with
    | some w =>
      obtain ⟨t, hky⟩ := format1_sound hf1
      obtain ⟨dsY, dsM, dsD, cT, dsH, dsMi, dsS, hdec, hdY, hlY, hdM, hM1, hM2,
        hdD, hD1, hD2, hdH, hH1, hH2, hdMi, hMi1, hMi2, hdS, hS1, hS2, hcT⟩ :=
        readYMDHMS_decomp hky
      have hldec : l = dsY ++ '-' :: (dsM ++ '-' :: (dsD ++ cT :: (dsH ++ ':' ::
          (dsMi ++ ':' :: (dsS ++ ['Z']))))) := by
        rw [← hl, hdec]
        simp [List.append_assoc]
      rw [hldec]
      unfold tolerantShape
      rw [shapeCore_eval dsY dsM dsD cT dsH dsMi dsS ['Z'] hdY hlY hdM hM1 hM2
        hdD hD1 hD2 hdH hH1 hH2 hdMi hMi1 hMi2 hdS hS1 hS2 hcT
        (headND_cons _ _ (by decide))]
      simp [shapeTail]
    | none =>
      rw [hf1] at h
      obtain ⟨t, fs, hky, hdig, h1f, h6f⟩ := format2_sound h
      obtain ⟨dsY, dsM, dsD, cT, dsH, dsMi, dsS, hdec, hdY, hlY, hdM, hM1, hM2,
        hdD, hD1, hD2, hdH, hH1, hH2, hdMi, hMi1, hMi2, hdS, hS1, hS2, hcT⟩ :=
        readYMDHMS_decomp hky
      have hldec : l = dsY ++ '-' :: (dsM ++ '-' :: (dsD ++ cT :: (dsH ++ ':' ::
          (dsMi ++ ':' :: (dsS ++ ('.' :: (fs ++ ['Z']))))))) := by
        rw [← hl, hdec]
        simp [List.append_assoc]
      rw [hldec]
      unfold tolerantShape
      rw [shapeCore_eval dsY dsM dsD cT dsH dsMi dsS ('.' :: (fs ++ ['Z'])) hdY hlY hdM hM1 hM2
        hdD hD1 hD2 hdH hH1 hH2 hdMi hMi1 hMi2 hdS hS1 hS2 hcT
        (headND_cons _ _ (by decide))]
      have hsp := digitsSpan_append fs ['Z'] hdig (headND_cons _ _ (by decide))
      simp [shapeTail, hsp, h1f, h6f]
  · obtain ⟨t, sgn, r, hky, hsgn, hsh⟩ := format3_sound h
    obtain ⟨dsY, dsM, dsD, cT, dsH, dsMi, dsS, hdec, hdY, hlY, hdM, hM1, hM2,
      hdD, hD1, hD2, hdH, hH1, hH2, hdMi, hMi1, hMi2, hdS, hS1, hS2, hcT⟩ :=
      readYMDHMS_decomp hky
    have hnd : headND (sgn :: r) := by
      rcases hsgn with rfl | rfl <;> exact headND_cons _ _ (by decide)
    rw [hdec]
    unfold tolerantShape
    rw [shapeCore_eval dsY dsM dsD cT dsH dsMi dsS (sgn :: r) hdY hlY hdM hM1 hM2
      hdD hD1 hD2 hdH hH1 hH2 hdMi hMi1 hMi2 hdS hS1 hS2 hcT hnd]
    rcases hsgn with rfl | rfl <;> simp [shapeTail, hsh]

/-- C9 counterexample: the Normalizer accepts strings outside the three
canonical profiles — `2024-1-2T3:4:5Z` (unpadded month, day, hour, minute
and second, so it matches none of the `YYYY-MM-DD...` profiles) parses to
an instant, as does a compact offset without the colon. -/
theorem unpadded_string_parses :
    parse_waiver_datetime (RawCell.strVal "2024-1-2T3:4:5Z")
      = some (naiveMicros ⟨2024, 1, 2, 3, 4, 5⟩ 0)
    ∧ parse_waiver_datetime (RawCell.strVal "2024-01-01T00:00:00+0530")
      = some (naiveMicros ⟨2024, 1, 1, 0, 0, 0⟩ 0 - offsetMicros false 5 30) := by
  constructor <;> decide

/-- C9 (amended): absent and non-string inputs are Unparseable, and every
all-ASCII string whose character shape lies outside the tolerant extension
of the three profiles (numeric fields may drop leading zeros, the
date/time separator may be lowercase, the offset colon may be omitted,
and offsets may carry seconds and a fraction) is Unparseable; the
Normalizer is a total function, so it never raises.  In particular
`not-a-date`, the empty string, and the value-invalid `2024-13-40Z` are
Unparseable.  (The restriction to ASCII input is needed because `re`'s
`\d` over `str` also matches non-ASCII Unicode decimal digits and `int()`
converts them, so some strings written with such digits do parse.) -/
theorem unparseable_inputs (c : RawCell) :
    (c = RawCell.absent → parse_waiver_datetime c = none)
    ∧ (c = RawCell.nonString → parse_waiver_datetime c = none)
    ∧ (∀ s : String, c = RawCell.strVal s → asciiOnly s.data = true →
        tolerantShape s.data = false → parse_waiver_datetime c = none)
    ∧ parse_waiver_datetime (RawCell.strVal "not-a-date") = none
    ∧ parse_waiver_datetime (RawCell.strVal "") = none
    ∧ parse_waiver_datetime (RawCell.strVal "2024-13-40Z") = none := by
  refine ⟨fun h => by subst h; rfl, fun h => by subst h; rfl, ?_, by decide, by decide,
    by decide⟩
  intro s hc hascii hshape
  subst hc
  cases hp : parseChars s.data with
  | none => simpa [parse_waiver_datetime] using hp
  | some v =>
    rw [parse_sound hp] at hshape
    exact absurd hshape (by simp)

theorem unparseable_inputs_witness :
    parse_waiver_datetime (RawCell.strVal "hello") = none :=
  (unparseable_inputs (RawCell.strVal "hello")).2.2.1 "hello" rfl (by decide) (by decide)

end ExpiredWaiverDeletion
